import Mathlib

/-!
# Jenkins crawler (`jenkins/crawler.go`)

A shallow embedding of the crawler: the extraction engine
(`extractLogs` and the functions below it), the two fetchers
(`extractNodeLogs`, `crawlJobStage`) and the poll scheduler (`updateState`).

Conventions of the embedding.

* The outside world is passed explicitly.  An HTTP server is a transition
  function on an arbitrary state `σ`, so a server may answer the same URL
  differently on every request.  Every request is appended to
  `World.requests`, every call of `logrus.Error` is counted in
  `World.errorsLogged`.
* A function that can hit a Go run-time panic returns `Option`; `none` is the
  panic (the goroutine, and with it the process, dies).
* Library functions whose code is not part of the repository
  (`http.Get`, `json.Unmarshal`, `sort.Slice`, `json.MarshalIndent`,
  `ioutil.WriteFile`) are fields of an environment record.
-/

namespace Jenkins

/-! ## Data model -/

/-- Modelled from the spec: the link record read as `.Href` (crawler.go:100, 118, 149, 167);
its declaration is outside `crawler.go`. -/
structure Link where
  Href : String
deriving DecidableEq, Repr

/-- Modelled from the spec: the `Links` record of an execution or a flow node, read as
`.Links.Log` (crawler.go:100, 118); its declaration is outside `crawler.go`. -/
structure LogLinks where
  Log : Link
deriving DecidableEq, Repr

/-- Modelled from the spec: the `Links` record of a stage, read as `.Links.Self`
(crawler.go:167); its declaration is outside `crawler.go`. -/
structure SelfLinks where
  Self : Link
deriving DecidableEq, Repr

/-- Modelled from the spec: `StageFlowNode` (FlowNodeRef: name, optional log link,
start-time); its declaration is outside `crawler.go`, the fields are those read at
crawler.go:118, 123, 126, 149. -/
structure StageFlowNode where
  Name : String
  Links : LogLinks
  StartTimeMillis : Int
deriving DecidableEq, Repr

/-- Modelled from the spec: `JobExecution` (ExecutionDescription: name, start-time,
optional direct log link, ordered list of flow nodes); its declaration is outside
`crawler.go`, the fields are those read at crawler.go:100, 106, 109, 148. -/
structure JobExecution where
  Name : String
  StartTimeMillis : Int
  Links : LogLinks
  StageFlowNodes : List StageFlowNode
deriving DecidableEq, Repr

/-- Modelled from the spec: an element of `JobData.Stages` (StageRef: self-link URL);
its declaration is outside `crawler.go`. -/
structure Stage where
  Links : SelfLinks
deriving DecidableEq, Repr

/-- Modelled from the spec: `JobData` (BuildDescription: status, name, id, ordered list
of StageRef); its declaration is outside `crawler.go`, the fields are those read at
crawler.go:166, 176-178. -/
structure JobData where
  Status : String
  Name : String
  ID : String
  Stages : List Stage
deriving DecidableEq, Repr

/-- Modelled from the spec: `NodeLog` (LogRecord: status, length, text); its declaration
is outside `crawler.go`, the fields are those read at crawler.go:105, 107, 108. -/
structure NodeLog where
  NodeStatus : String
  Length : Int
  Text : String
deriving DecidableEq, Repr

/-- Modelled from the spec: `JenkinsStage` (StageLog: status, composite name, log length,
log text, start-time); its declaration is outside `crawler.go`, the fields are those
written at crawler.go:104-110. -/
structure JenkinsStage where
  Status : String
  Name : String
  LogLength : Int
  LogText : String
  StartTime : Int
deriving DecidableEq, Repr

/-- Modelled from the spec: `JenkinsData` (BuildSnapshot: status, name, id, build
identifier, ordered list of StageLog); its declaration is outside `crawler.go`, the
fields are those written at crawler.go:175-181. -/
structure JenkinsData where
  Status : String
  Name : String
  ID : String
  BuildID : String
  Stages : List JenkinsStage
deriving DecidableEq, Repr

/-- The three fields of `url.URL` that the crawler sets (crawler.go:77-81). -/
structure URL where
  Scheme : String
  Host : String
  Path : String
deriving DecidableEq, Repr

/-! ## The outside world -/

/-- What `http.Get` hands back: either an error and a nil response
(`transportError`), or a response whose body reads as `body`; `withErr` is set when
a non-nil error accompanies the response. -/
inductive HttpResult where
  | transportError
  | response (body : String) (withErr : Bool)
deriving DecidableEq, Repr

/-- The library functions the extraction engine calls.  `httpGet` is a transition
function of the server state; the two decoders give the value left in the target
variable (starting from its zero value) and whether `json.Unmarshal` returned an error;
`sortSlice less xs` is the content of the slice after `sort.Slice`. -/
structure Env (σ : Type) where
  httpGet : σ → URL → HttpResult × σ
  unmarshalJobExecution : String → JobExecution × Bool
  unmarshalNodeLog : String → NodeLog × Bool
  sortSlice : (JenkinsStage → JenkinsStage → Bool) → List JenkinsStage → List JenkinsStage

/-- The state threaded through a crawl. -/
structure World (σ : Type) where
  net : σ
  requests : List URL
  errorsLogged : Nat
deriving DecidableEq, Repr

/-- One call of `logrus.Error`. -/
def logError {σ : Type} (w : World σ) : World σ :=
  { w with errorsLogged := w.errorsLogged + 1 }

/-- One call of `logrus.Error` guarded by `if err != nil`. -/
def logIfErr {σ : Type} (err : Bool) (w : World σ) : World σ :=
  if err then logError w else w

/-- One call of `http.Get`: the request is recorded and the server moves on. -/
def httpGet {σ : Type} (E : Env σ) (u : URL) (w : World σ) : HttpResult × World σ :=
  ((E.httpGet w.net u).1,
   { w with net := (E.httpGet w.net u).2, requests := w.requests ++ [u] })

/-! ## Fetchers (crawler.go:76-94, 130-144) -/

/-- Log Fetcher, crawler.go:130-144.  After a transport failure `resp` is nil and
`defer resp.Body.Close()` (line 136) dereferences it: the function panics.  Otherwise
the body is decoded into a zero-valued `NodeLog` and the record is returned whether or
not the decode failed. -/
def extractNodeLogs {σ : Type} (E : Env σ) (logLink : URL) (w : World σ) :
    Option (NodeLog × World σ) :=
  match httpGet E logLink w with
  | (HttpResult.transportError, _) => none
  | (HttpResult.response body withErr, w1) =>
    some ((E.unmarshalNodeLog body).1,
          logIfErr (E.unmarshalNodeLog body).2 (logIfErr withErr w1))

/-- Stage/Execution Fetcher, crawler.go:76-94; same shape as `extractNodeLogs`. -/
def crawlJobStage {σ : Type} (E : Env σ) (buildURL : URL) (link : String) (w : World σ) :
    Option (JobExecution × World σ) :=
  match httpGet E { Scheme := buildURL.Scheme, Host := buildURL.Host, Path := link } w with
  | (HttpResult.transportError, _) => none
  | (HttpResult.response body withErr, w1) =>
    some ((E.unmarshalJobExecution body).1,
          logIfErr (E.unmarshalJobExecution body).2 (logIfErr withErr w1))

/-! ## Extraction engine (crawler.go:96-182) -/

/-- Mode A, crawler.go:96-112. -/
def crawlExecutionLogs {σ : Type} (E : Env σ) (execution : JobExecution) (buildURL : URL)
    (w : World σ) : Option (List JenkinsStage × World σ) :=
  match extractNodeLogs E
      { Scheme := buildURL.Scheme, Host := buildURL.Host, Path := execution.Links.Log.Href } w with
  | none => none
  | some (nodeLog, w1) =>
    some ([{ Status := nodeLog.NodeStatus
             Name := execution.Name
             LogLength := nodeLog.Length
             LogText := nodeLog.Text
             StartTime := execution.StartTimeMillis }], w1)

/-- One flow node of Mode B, crawler.go:114-128; the name is
`fmt.Sprintf("%s - %s", ename, node.Name)`. -/
def extractLogsFromFlowNode {σ : Type} (E : Env σ) (node : StageFlowNode) (buildURL : URL)
    (ename : String) (w : World σ) : Option (JenkinsStage × World σ) :=
  match extractNodeLogs E
      { Scheme := buildURL.Scheme, Host := buildURL.Host, Path := node.Links.Log.Href } w with
  | none => none
  | some (nodeLog, w1) =>
    some ({ Status := nodeLog.NodeStatus
            Name := ename ++ " - " ++ node.Name
            LogLength := nodeLog.Length
            LogText := nodeLog.Text
            StartTime := node.StartTimeMillis }, w1)

/-- The `for` loop of `crawlStageFlowNodesLogs` (crawler.go:148-153): `nodes` is what
is left of `execution.StageFlowNodes`, `logs` the slice built so far. -/
def crawlStageFlowNodesLogsLoop {σ : Type} (E : Env σ) (buildURL : URL) (ename : String) :
    List StageFlowNode → List JenkinsStage → World σ → Option (List JenkinsStage × World σ)
  | [], logs, w => some (logs, w)
  | node :: rest, logs, w =>
    if node.Links.Log.Href = "" then
      crawlStageFlowNodesLogsLoop E buildURL ename rest logs w
    else
      match extractLogsFromFlowNode E node buildURL ename w with
      | none => none
      | some (stage, w1) =>
        crawlStageFlowNodesLogsLoop E buildURL ename rest (logs ++ [stage]) w1

/-- Mode B, crawler.go:146-155. -/
def crawlStageFlowNodesLogs {σ : Type} (E : Env σ) (execution : JobExecution) (buildURL : URL)
    (w : World σ) : Option (List JenkinsStage × World σ) :=
  crawlStageFlowNodesLogsLoop E buildURL execution.Name execution.StageFlowNodes [] w

/-- Mode selection, crawler.go:157-162. -/
def extractLogsFromExecution {σ : Type} (E : Env σ) (execution : JobExecution) (buildURL : URL)
    (w : World σ) : Option (List JenkinsStage × World σ) :=
  if execution.Links.Log.Href = "" then
    crawlStageFlowNodesLogs E execution buildURL w
  else
    crawlExecutionLogs E execution buildURL w

/-- The `for` loop of `extractLogs` (crawler.go:166-169): `todo` is what is left of
`jd.Stages`, `stages` the slice built so far. -/
def extractLogsLoop {σ : Type} (E : Env σ) (buildURL : URL) :
    List Stage → List JenkinsStage → World σ → Option (List JenkinsStage × World σ)
  | [], stages, w => some (stages, w)
  | stage :: rest, stages, w =>
    match crawlJobStage E buildURL stage.Links.Self.Href w with
    | none => none
    | some (execution, w1) =>
      match extractLogsFromExecution E execution buildURL w1 with
      | none => none
      | some (logs, w2) => extractLogsLoop E buildURL rest (stages ++ logs) w2

/-- The closure handed to `sort.Slice` (crawler.go:171-173), on the elements at the two
indices. -/
def startTimeLess (a b : JenkinsStage) : Bool :=
  decide (a.StartTime < b.StartTime)

/-- Extraction engine entry point, crawler.go:164-182. -/
def extractLogs {σ : Type} (E : Env σ) (jd : JobData) (buildID : String) (buildURL : URL)
    (w : World σ) : Option (JenkinsData × World σ) :=
  match extractLogsLoop E buildURL jd.Stages [] w with
  | none => none
  | some (stages, w1) =>
    some ({ Status := jd.Status
            Name := jd.Name
            ID := jd.ID
            BuildID := buildID
            Stages := E.sortSlice startTimeLess stages }, w1)

/-! ## Poll scheduler (crawler.go:18-52) -/

/-- The goroutine started at crawler.go:44-48: it sleeps `sleepSeconds` seconds and then
sends `value` on `processChan`. -/
structure DelayedSend where
  sleepSeconds : Nat
  value : String
deriving DecidableEq, Repr

/-- The library functions the scheduler calls.  `writeFile fs file data` gives whether
`ioutil.WriteFile` returned an error, and the file system afterwards. -/
structure FileEnv (φ : Type) where
  marshalIndent : JenkinsData → String
  executableFolder : String
  writeFile : φ → String → String → Bool × φ

/-- The state threaded through the scheduler loop: the file system, the number of calls
of `logrus.Error`, and the goroutines started so far, oldest first. -/
structure SchedulerState (φ : Type) where
  fs : φ
  errorsLogged : Nat
  spawned : List DelayedSend

/-- One iteration of the loop of `updateState` (crawler.go:32-49), for the snapshot
`jdata` received on `stateChan`.  The iteration ends at the closing brace of the
`select`, after which the `for` loop receives again. -/
def updateStateStep {φ : Type} (F : FileEnv φ) (buildID : String) (jdata : JenkinsData)
    (s : SchedulerState φ) : SchedulerState φ :=
  let b := F.marshalIndent jdata
  let file := F.executableFolder ++ "/out_" ++ buildID ++ ".json"
  let r := F.writeFile s.fs file b
  let errorsLogged := if r.1 then s.errorsLogged + 1 else s.errorsLogged
  if jdata.Status = "" ∨ jdata.Status = "IN_PROGRESS" then
    { fs := r.2, errorsLogged := errorsLogged
      spawned := s.spawned ++ [{ sleepSeconds := 5, value := buildID }] }
  else
    { fs := r.2, errorsLogged := errorsLogged, spawned := s.spawned }

/-- The loop of `updateState` (crawler.go:29-52) run on the snapshots received so far,
in the order received. -/
def updateState {φ : Type} (F : FileEnv φ) (buildID : String) :
    List JenkinsData → SchedulerState φ → SchedulerState φ
  | [], s => s
  | jdata :: rest, s => updateState F buildID rest (updateStateStep F buildID jdata s)

/-- What `CrawlJenkins` sets up (crawler.go:19-27): the build identifier given to
`updateState`, and the content of `processChan` after the initial send. -/
structure Launch where
  schedulerBuildID : String
  processChan : List String
deriving DecidableEq, Repr

/-- Crawl initiation, crawler.go:19-27. -/
def CrawlJenkins (_buildURI : String) (buildID : String) : Launch :=
  { schedulerBuildID := buildID, processChan := [buildID] }

/-! ## Specification side -/

/-- What the documentation of `sort.Slice` promises for the closure of `extractLogs`:
the slice afterwards holds the same elements and is ordered by the closure.  Nothing is
promised about elements that compare equal. -/
def SortSliceContract
    (sortSlice : (JenkinsStage → JenkinsStage → Bool) → List JenkinsStage → List JenkinsStage) :
    Prop :=
  ∀ l : List JenkinsStage,
    (sortSlice startTimeLess l).Perm l ∧
    (sortSlice startTimeLess l).Pairwise (fun a b => a.StartTime ≤ b.StartTime)

/-- A server that always answers: `http.Get` never returns a nil response. -/
def Responsive {σ : Type} (E : Env σ) : Prop :=
  ∀ (s : σ) (u : URL), (E.httpGet s u).1 ≠ HttpResult.transportError

/-- The lists returned by `extractLogsFromExecution`, stage by stage in stage order:
each stage's execution is fetched with `crawlJobStage` and handed to
`extractLogsFromExecution`, the world being passed on from one stage to the next. -/
def stageLogLists {σ : Type} (E : Env σ) (buildURL : URL) :
    List Stage → World σ → Option (List (List JenkinsStage) × World σ)
  | [], w => some ([], w)
  | stage :: rest, w =>
    match crawlJobStage E buildURL stage.Links.Self.Href w with
    | none => none
    | some (execution, w1) =>
      match extractLogsFromExecution E execution buildURL w1 with
      | none => none
      | some (logs, w2) =>
        match stageLogLists E buildURL rest w2 with
        | none => none
        | some (lists, w3) => some (logs :: lists, w3)

/-- Stability of `out` with respect to the emission sequence `emitted`: for every
start-time, the entries with that start-time come in the same order in both. -/
def StableFor (emitted out : List JenkinsStage) : Prop :=
  ∀ t : Int, out.filter (fun x => decide (x.StartTime = t)) =
    emitted.filter (fun x => decide (x.StartTime = t))

/-- The flow nodes that carry a log link. -/
def linkedNodes (execution : JobExecution) : List StageFlowNode :=
  execution.StageFlowNodes.filter (fun node => decide (node.Links.Log.Href ≠ ""))

/-! ## A concrete `sort.Slice`

`sort.Slice` is library code.  The sorter below is what the `sort` package of
Go 1.8 to 1.18 runs on a slice of at most twelve elements (`quickSort_func` skips
its partitioning loop and goes straight to the final block): one pass comparing each
element with the one six places before it, then `insertionSort_func`. -/

/-- The pass `for i := a + 6; i < b; i++ { if less(i, i-6) { swap(i, i-6) } }`, on the
part of the slice from index `i - 6` on: the head is compared with the element six
places further, they are exchanged when that one is smaller, and the pass moves one
place to the right.  `n` bounds the number of places left. -/
def gapPassFrom {α : Type} (less : α → α → Bool) : Nat → List α → List α
  | 0, l => l
  | _ + 1, [] => []
  | n + 1, x :: rest =>
    match rest[5]? with
    | none => x :: rest
    | some y =>
      if less y x then y :: gapPassFrom less n (rest.set 5 x)
      else x :: gapPassFrom less n rest

/-- The whole gap-6 pass over a slice. -/
def gapPass {α : Type} (less : α → α → Bool) (l : List α) : List α :=
  gapPassFrom less l.length l

/-- The inner loop of `insertionSort_func`,
`for j := i; j > a && less(j, j-1); j-- { swap(j, j-1) }`: the element `x` at index `i`
moves left as long as it is smaller than its left neighbour.  The elements to its left
are given nearest first. -/
def sinkInto {α : Type} (less : α → α → Bool) (x : α) : List α → List α
  | [] => [x]
  | y :: ys => if less x y then y :: sinkInto less x ys else x :: y :: ys

/-- The outer loop of `insertionSort_func`: `revDone` is the part of the slice already
handled, last element first, `todo` the rest. -/
def insertionSortLoop {α : Type} (less : α → α → Bool) : List α → List α → List α
  | revDone, [] => revDone.reverse
  | revDone, x :: rest => insertionSortLoop less (sinkInto less x revDone) rest

/-- The function `insertionSort_func` of the `sort` package. -/
def insertionSortFunc {α : Type} (less : α → α → Bool) (l : List α) : List α :=
  insertionSortLoop less [] l

/-- The final block of `quickSort_func`: gap-6 pass, then insertion sort. -/
def smallSliceSort {α : Type} (less : α → α → Bool) (l : List α) : List α :=
  insertionSortFunc less (gapPass less l)

/-! ## The two implementations of `sort.Slice`

`sort.Slice(x, less)` calls `quickSort_func(data, 0, n, maxDepth(n))` in Go 1.8 to 1.18
and `pdqsort_func(data, 0, n, bits.Len(n))` in Go 1.19 and later.  Both are modelled
below on a list for the slice, with `data.Less` and `data.Swap` as the only accesses. -/

/-- The call `data.Less(i, j)`. -/
def lessAt {α : Type} (less : α → α → Bool) (data : List α) (i j : Nat) : Bool :=
  match data[i]?, data[j]? with
  | some x, some y => less x y
  | _, _ => false

/-- The call `data.Swap(i, j)`. -/
def swapAt {α : Type} (data : List α) (i j : Nat) : List α :=
  match data[i]?, data[j]? with
  | some x, some y => (data.set i y).set j x
  | _, _ => data

/-- A routine that works on `data[a:b]` only. -/
def onRange {α : Type} (a b : Nat) (f : List α → List α) (data : List α) : List α :=
  data.take a ++ f ((data.drop a).take (b - a)) ++ data.drop b

/-- The loop `for lo < hi && p(lo) { lo++ }`; the result is the final `lo`.  The first
argument bounds the number of iterations, `hi - lo` is enough. -/
def scanUp (p : Nat → Bool) (hi : Nat) : Nat → Nat → Nat
  | 0, lo => lo
  | n + 1, lo => if lo < hi && p lo then scanUp p hi n (lo + 1) else lo

/-- The loop `for lo < hi && p(hi-1) { hi-- }`; the result is the final `hi`. -/
def scanDown (p : Nat → Bool) (lo : Nat) : Nat → Nat
  | 0 => 0
  | hi + 1 => if lo < hi + 1 && p hi then scanDown p lo hi else hi + 1

/-- The number of bits of `n` (`bits.Len`), which is also what the loop of `maxDepth`
counts; the first argument bounds the number of halvings, `n` is enough. -/
def bitsLen : Nat → Nat → Nat
  | 0, _ => 0
  | f + 1, n => if 0 < n then bitsLen f (n / 2) + 1 else 0

/-- The function `siftDown_func(data, lo, hi, first)`; the first argument bounds the
number of iterations. -/
def siftDown {α : Type} (less : α → α → Bool) (first hi : Nat) : Nat → Nat → List α → List α
  | 0, _, data => data
  | n + 1, root, data =>
    if 2 * root + 1 ≥ hi then data
    else
      let child :=
        if 2 * root + 2 < hi && lessAt less data (first + (2 * root + 1)) (first + (2 * root + 2))
        then 2 * root + 2 else 2 * root + 1
      if !lessAt less data (first + root) (first + child) then data
      else siftDown less first hi n child (swapAt data (first + root) (first + child))

/-- The function `heapSort_func(data, a, b)`. -/
def heapSort {α : Type} (less : α → α → Bool) (a b : Nat) (data : List α) : List α :=
  let hi := b - a
  let built := (List.range ((hi - 1) / 2 + 1)).reverse.foldl
    (fun d i => siftDown less a hi hi i d) data
  (List.range hi).reverse.foldl
    (fun d i => siftDown less a i hi 0 (swapAt d a (a + i))) built

/-! ### Go 1.8 to 1.18: `quickSort_func` -/

/-- The function `medianOfThree_func(data, m1, m0, m2)`. -/
def medianOfThree {α : Type} (less : α → α → Bool) (data : List α) (m1 m0 m2 : Nat) : List α :=
  let d1 := if lessAt less data m1 m0 then swapAt data m1 m0 else data
  if lessAt less d1 m2 m1 then
    let d2 := swapAt d1 m2 m1
    if lessAt less d2 m1 m0 then swapAt d2 m1 m0 else d2
  else d1

/-- The main loop of `doPivot_func`: `b` moves up over elements not above the pivot, `c`
moves down over elements above it, and the two elements they stop at are exchanged. -/
def doPivotLoop {α : Type} (less : α → α → Bool) (pivot : Nat) :
    Nat → List α → Nat → Nat → List α × Nat × Nat
  | 0, data, b, c => (data, b, c)
  | n + 1, data, b, c =>
    let b1 := scanUp (fun i => !lessAt less data pivot i) c (c - b) b
    let c1 := scanDown (fun i => lessAt less data pivot i) b1 c
    if b1 ≥ c1 then (data, b1, c1)
    else doPivotLoop less pivot n (swapAt data b1 (c1 - 1)) (b1 + 1) (c1 - 1)

/-- The loop of `doPivot_func` under `if protect`: elements equal to the pivot are
gathered at the top of `data[a:b]`. -/
def protectLoop {α : Type} (less : α → α → Bool) (pivot : Nat) :
    Nat → List α → Nat → Nat → List α × Nat × Nat
  | 0, data, a, b => (data, a, b)
  | n + 1, data, a, b =>
    let b1 := scanDown (fun i => !lessAt less data i pivot) a b
    let a1 := scanUp (fun i => lessAt less data i pivot) b1 (b1 - a) a
    if a1 ≥ b1 then (data, a1, b1)
    else protectLoop less pivot n (swapAt data a1 (b1 - 1)) (a1 + 1) (b1 - 1)

/-- The function `doPivot_func(data, lo, hi)`; the result is the slice and
`(midlo, midhi)`. -/
def doPivot {α : Type} (less : α → α → Bool) (data : List α) (lo hi : Nat) :
    List α × Nat × Nat :=
  let m := (lo + hi) / 2
  let s := (hi - lo) / 8
  let d0 :=
    if hi - lo > 40 then
      medianOfThree less
        (medianOfThree less (medianOfThree less data lo (lo + s) (lo + 2 * s)) m (m - s) (m + s))
        (hi - 1) (hi - 1 - s) (hi - 1 - 2 * s)
    else data
  let d1 := medianOfThree less d0 lo m (hi - 1)
  let pivot := lo
  let a := scanUp (fun i => lessAt less d1 i pivot) (hi - 1) (hi - 1 - (lo + 1)) (lo + 1)
  let r := doPivotLoop less pivot (hi - lo) d1 a (hi - 1)
  let d2 := r.1
  let b := r.2.1
  let c := r.2.2
  let protect0 : Bool := hi - c < 5
  -- the block `if !protect && hi-c < (hi-lo)/4`
  let t1 : List α × Nat × Nat × Nat :=
    if !lessAt less d2 pivot (hi - 1) then (swapAt d2 c (hi - 1), b, c + 1, 1) else (d2, b, c, 0)
  let t2 : List α × Nat × Nat × Nat :=
    if !lessAt less t1.1 (t1.2.1 - 1) pivot then (t1.1, t1.2.1 - 1, t1.2.2.1, t1.2.2.2 + 1)
    else t1
  let t3 : List α × Nat × Nat × Nat :=
    if !lessAt less t2.1 m pivot then
      (swapAt t2.1 m (t2.2.1 - 1), t2.2.1 - 1, t2.2.2.1, t2.2.2.2 + 1)
    else t2
  let u : List α × Nat × Nat × Bool :=
    if !protect0 && decide (hi - c < (hi - lo) / 4) then
      (t3.1, t3.2.1, t3.2.2.1, decide (t3.2.2.2 > 1))
    else (d2, b, c, protect0)
  let v : List α × Nat × Nat :=
    if u.2.2.2 then protectLoop less pivot (hi - lo) u.1 a u.2.1 else (u.1, a, u.2.1)
  (swapAt v.1 pivot (v.2.2 - 1), v.2.2 - 1, u.2.2.1)

/-- The function `quickSort_func(data, a, b, maxDepth)`; the loop `for b-a > 12` is
written as a call on the part that the loop goes on with.  The first argument bounds
the depth of the calls, `b - a` is enough. -/
def quickSortFunc {α : Type} (less : α → α → Bool) :
    Nat → List α → Nat → Nat → Nat → List α
  | 0, data, _, _, _ => data
  | n + 1, data, a, b, maxDepth =>
    if b - a > 12 then
      if maxDepth = 0 then heapSort less a b data
      else
        let r := doPivot less data a b
        if r.2.1 - a < b - r.2.2 then
          quickSortFunc less n (quickSortFunc less n r.1 a r.2.1 (maxDepth - 1))
            r.2.2 b (maxDepth - 1)
        else
          quickSortFunc less n (quickSortFunc less n r.1 r.2.2 b (maxDepth - 1))
            a r.2.1 (maxDepth - 1)
    else if b - a > 1 then onRange a b (smallSliceSort less) data
    else data

/-- The function `sort.Slice` of Go 1.8 to 1.18. -/
def sortSliceQuick {α : Type} (less : α → α → Bool) (data : List α) : List α :=
  quickSortFunc less (data.length + 1) data 0 data.length (2 * bitsLen data.length data.length)

/-! ### Go 1.19 and later: `pdqsort_func` -/

/-- The type `sortedHint`. -/
inductive SortedHint where
  | unknownHint
  | increasingHint
  | decreasingHint
deriving DecidableEq, Repr

/-- The function `order2_func(data, a, b, swaps)`. -/
def order2 {α : Type} (less : α → α → Bool) (data : List α) (a b swaps : Nat) :
    Nat × Nat × Nat :=
  if lessAt less data b a then (b, a, swaps + 1) else (a, b, swaps)

/-- The function `median_func(data, a, b, c, swaps)`; the result is the index and the
counter. -/
def median {α : Type} (less : α → α → Bool) (data : List α) (a b c swaps : Nat) : Nat × Nat :=
  let r1 := order2 less data a b swaps
  let r2 := order2 less data r1.2.1 c r1.2.2
  let r3 := order2 less data r1.1 r2.1 r2.2.2
  (r3.2.1, r3.2.2)

/-- The function `medianAdjacent_func(data, a, swaps)`. -/
def medianAdjacent {α : Type} (less : α → α → Bool) (data : List α) (a swaps : Nat) : Nat × Nat :=
  median less data (a - 1) a (a + 1) swaps

/-- The function `choosePivot_func(data, a, b)`. -/
def choosePivot {α : Type} (less : α → α → Bool) (data : List α) (a b : Nat) :
    Nat × SortedHint :=
  let l := b - a
  let i := a + l / 4 * 1
  let j := a + l / 4 * 2
  let k := a + l / 4 * 3
  let r : Nat × Nat :=
    if l ≥ 8 then
      if l ≥ 50 then
        let ri := medianAdjacent less data i 0
        let rj := medianAdjacent less data j ri.2
        let rk := medianAdjacent less data k rj.2
        median less data ri.1 rj.1 rk.1 rk.2
      else median less data i j k 0
    else (j, 0)
  if r.2 = 0 then (r.1, SortedHint.increasingHint)
  else if r.2 = 12 then (r.1, SortedHint.decreasingHint)
  else (r.1, SortedHint.unknownHint)

/-- The loop `for j := i - 1; j >= 1; j--` of `partialInsertionSort_func`, entered
with `j`. -/
def shiftLeft {α : Type} (less : α → α → Bool) : Nat → List α → List α
  | 0, data => data
  | j + 1, data =>
    if !lessAt less data (j + 1) j then data
    else shiftLeft less j (swapAt data (j + 1) j)

/-- The loop `for j := i + 1; j < b; j++` of `partialInsertionSort_func`, entered
with `j`; the first argument bounds the number of iterations. -/
def shiftRight {α : Type} (less : α → α → Bool) (b : Nat) : Nat → Nat → List α → List α
  | 0, _, data => data
  | n + 1, j, data =>
    if j < b then
      if !lessAt less data j (j - 1) then data
      else shiftRight less b n (j + 1) (swapAt data j (j - 1))
    else data

/-- The function `partialInsertionSort_func(data, a, b)`; the first argument is the
number of steps left (`maxSteps` at the start), the last one is `i`. -/
def partialInsertionSort {α : Type} (less : α → α → Bool) (a b : Nat) :
    Nat → List α → Nat → List α × Bool
  | 0, data, _ => (data, false)
  | k + 1, data, i =>
    let i1 := scanUp (fun x => !lessAt less data x (x - 1)) b (b - i) i
    if i1 = b then (data, true)
    else if b - a < 50 then (data, false)
    else
      let d1 := swapAt data i1 (i1 - 1)
      let d2 := if i1 - a ≥ 2 then shiftLeft less (i1 - 1) d1 else d1
      let d3 := if b - i1 ≥ 2 then shiftRight less b (b - i1) (i1 + 1) d2 else d2
      partialInsertionSort less a b k d3 i1

/-- The loop `for i <= j && p(i) { i++ }`; the result is the final `i`.  The first
argument bounds the number of iterations, `j + 1 - i` is enough. -/
def scanUpTo (p : Nat → Bool) (j : Nat) : Nat → Nat → Nat
  | 0, i => i
  | n + 1, i => if i ≤ j && p i then scanUpTo p j n (i + 1) else i

/-- The loop `for i <= j && p(j) { j-- }`; the result is the final `j`.  It is entered
with `1 ≤ i` only, so `j` stays at or above 0. -/
def scanDownTo (p : Nat → Bool) (i : Nat) : Nat → Nat
  | 0 => 0
  | j + 1 => if i ≤ j + 1 && p (j + 1) then scanDownTo p i j else j + 1

/-- The loop of `partitionEqual_func`; the result is the slice and `i`. -/
def partitionEqualLoop {α : Type} (less : α → α → Bool) (a : Nat) :
    Nat → List α → Nat → Nat → List α × Nat
  | 0, data, i, _ => (data, i)
  | n + 1, data, i, j =>
    let i1 := scanUpTo (fun x => !lessAt less data a x) j (j + 1 - i) i
    let j1 := scanDownTo (fun x => lessAt less data a x) i1 j
    if i1 > j1 then (data, i1)
    else partitionEqualLoop less a n (swapAt data i1 j1) (i1 + 1) (j1 - 1)

/-- The function `partitionEqual_func(data, a, b, pivot)`; the result is the slice and
`newpivot`. -/
def partitionEqual {α : Type} (less : α → α → Bool) (data : List α) (a b pivot : Nat) :
    List α × Nat :=
  partitionEqualLoop less a (b - a) (swapAt data a pivot) (a + 1) (b - 1)

/-- The second loop of `partition_func`; the result is the slice and `j`. -/
def partitionLoop {α : Type} (less : α → α → Bool) (a : Nat) :
    Nat → List α → Nat → Nat → List α × Nat
  | 0, data, _, j => (data, j)
  | n + 1, data, i, j =>
    let i1 := scanUpTo (fun x => lessAt less data x a) j (j + 1 - i) i
    let j1 := scanDownTo (fun x => !lessAt less data x a) i1 j
    if i1 > j1 then (data, j1)
    else partitionLoop less a n (swapAt data i1 j1) (i1 + 1) (j1 - 1)

/-- The function `partition_func(data, a, b, pivot)`; the result is the slice,
`newpivot` and `alreadyPartitioned`. -/
def partition {α : Type} (less : α → α → Bool) (data : List α) (a b pivot : Nat) :
    List α × Nat × Bool :=
  let d0 := swapAt data a pivot
  let i := scanUpTo (fun x => lessAt less d0 x a) (b - 1) (b - 1 - a) (a + 1)
  let j := scanDownTo (fun x => !lessAt less d0 x a) i (b - 1)
  if i > j then (swapAt d0 j a, j, true)
  else
    let r := partitionLoop less a (b - a) (swapAt d0 i j) (i + 1) (j - 1)
    (swapAt r.1 r.2 a, r.2, false)

/-- The function `pdqsort_func(data, a, b, limit)`, with its two local flags; the loop
is written as a call on the part that the loop goes on with.  `breakPatterns data a b`
stands for `breakPatterns_func(data, a, b)`, which exchanges three elements around the
middle of `data[a:b]` with elements chosen by a pseudo-random generator; it is left
open.  The argument after `less` bounds the depth of the calls, `b - a + 1` is
enough. -/
def pdqsortFunc {α : Type} (breakPatterns : List α → Nat → Nat → List α)
    (less : α → α → Bool) :
    Nat → List α → Nat → Nat → Nat → Bool → Bool → List α
  | 0, data, _, _, _, _, _ => data
  | n + 1, data, a, b, limit, wasBalanced, wasPartitioned =>
    if b - a ≤ 12 then onRange a b (insertionSortFunc less) data
    else if limit = 0 then heapSort less a b data
    else
      let d1 := if !wasBalanced then breakPatterns data a b else data
      let limit1 := if !wasBalanced then limit - 1 else limit
      let ch := choosePivot less d1 a b
      let d2 := if ch.2 = SortedHint.decreasingHint then onRange a b List.reverse d1 else d1
      let pivot := if ch.2 = SortedHint.decreasingHint then (b - 1) - (ch.1 - a) else ch.1
      let hint :=
        if ch.2 = SortedHint.decreasingHint then SortedHint.increasingHint else ch.2
      let ps : List α × Bool :=
        if wasBalanced && wasPartitioned && decide (hint = SortedHint.increasingHint) then
          partialInsertionSort less a b 5 d2 (a + 1)
        else (d2, false)
      if ps.2 then ps.1
      else if decide (a > 0) && !lessAt less ps.1 (a - 1) pivot then
        let pe := partitionEqual less ps.1 a b pivot
        pdqsortFunc breakPatterns less n pe.1 pe.2 b limit1 wasBalanced wasPartitioned
      else
        let pt := partition less ps.1 a b pivot
        let mid := pt.2.1
        if mid - a < b - mid then
          pdqsortFunc breakPatterns less n
            (pdqsortFunc breakPatterns less n pt.1 a mid limit1 true true)
            (mid + 1) b limit1 (decide (mid - a ≥ (b - a) / 8)) pt.2.2
        else
          pdqsortFunc breakPatterns less n
            (pdqsortFunc breakPatterns less n pt.1 (mid + 1) b limit1 true true)
            a mid limit1 (decide (b - mid ≥ (b - a) / 8)) pt.2.2

/-- The function `sort.Slice` of Go 1.19 and later. -/
def sortSlicePdq {α : Type} (breakPatterns : List α → Nat → Nat → List α)
    (less : α → α → Bool) (data : List α) : List α :=
  pdqsortFunc breakPatterns less (data.length + 1) data 0 data.length
    (bitsLen data.length data.length) true true

/-! ## A concrete server -/

/-- A server that answers every request with the path asked for, decoders that look the
body up in a table (and report a decode error for a body that is not there), and
`smallSliceSort` for `sort.Slice`. -/
def tableEnv (executions : List (String × JobExecution)) (logs : List (String × NodeLog)) :
    Env Unit where
  httpGet := fun s u => (HttpResult.response u.Path false, s)
  unmarshalJobExecution := fun body =>
    match executions.lookup body with
    | some e => (e, false)
    | none => ({ Name := "", StartTimeMillis := 0, Links := ⟨⟨""⟩⟩, StageFlowNodes := [] }, true)
  unmarshalNodeLog := fun body =>
    match logs.lookup body with
    | some nodeLog => (nodeLog, false)
    | none => ({ NodeStatus := "", Length := 0, Text := "" }, true)
  sortSlice := smallSliceSort

/-- The world before the first request. -/
def freshWorld : World Unit :=
  { net := (), requests := [], errorsLogged := 0 }

/-- The build URL used in the examples. -/
def ciURL : URL :=
  { Scheme := "http", Host := "ci", Path := "/job/a/1/wfapi/describe" }

/-- A leaf execution: a direct log link and no flow nodes. -/
def leafExecution (name : String) (start : Int) (log : String) : JobExecution :=
  { Name := name, StartTimeMillis := start, Links := ⟨⟨log⟩⟩, StageFlowNodes := [] }

/-- A log record with status `SUCCESS`. -/
def okLog (text : String) : NodeLog :=
  { NodeStatus := "SUCCESS", Length := text.length, Text := text }

/-- A build of seven leaf stages: the first starts at 200, the six others at 100. -/
def sevenStages : JobData :=
  { Status := "SUCCESS", Name := "a #1", ID := "1"
    Stages := ["/s0", "/s1", "/s2", "/s3", "/s4", "/s5", "/s6"].map (fun p => ⟨⟨⟨p⟩⟩⟩) }

/-- The server for `sevenStages`. -/
def sevenEnv : Env Unit :=
  tableEnv
    [("/s0", leafExecution "s0" 200 "/l0"), ("/s1", leafExecution "s1" 100 "/l1"),
     ("/s2", leafExecution "s2" 100 "/l2"), ("/s3", leafExecution "s3" 100 "/l3"),
     ("/s4", leafExecution "s4" 100 "/l4"), ("/s5", leafExecution "s5" 100 "/l5"),
     ("/s6", leafExecution "s6" 100 "/l6")]
    [("/l0", okLog "a"), ("/l1", okLog "b"), ("/l2", okLog "c"), ("/l3", okLog "d"),
     ("/l4", okLog "e"), ("/l5", okLog "f"), ("/l6", okLog "g")]


/-- The log entry of a leaf stage of the examples. -/
def stageLog (name : String) (start : Int) (text : String) : JenkinsStage :=
  { Status := "SUCCESS", Name := name, LogLength := text.length, LogText := text
    StartTime := start }

/-- The request to path `p` of the server of the examples. -/
def ciGet (p : String) : URL :=
  { Scheme := "http", Host := "ci", Path := p }

/-- The lists emitted for `sevenStages`, stage by stage. -/
def sevenLists : List (List JenkinsStage) :=
  [[stageLog "s0" 200 "a"], [stageLog "s1" 100 "b"], [stageLog "s2" 100 "c"],
   [stageLog "s3" 100 "d"], [stageLog "s4" 100 "e"], [stageLog "s5" 100 "f"],
   [stageLog "s6" 100 "g"]]

/-- The world after the crawl of `sevenStages`. -/
def sevenWorld : World Unit :=
  { net := ()
    requests := ["/s0", "/l0", "/s1", "/l1", "/s2", "/l2", "/s3", "/l3", "/s4", "/l4",
      "/s5", "/l5", "/s6", "/l6"].map ciGet
    errorsLogged := 0 }

/-- A build of thirteen leaf stages: the first starts at 200, the twelve others at
100. -/
def thirteenStages : JobData :=
  { Status := "SUCCESS", Name := "a #2", ID := "2"
    Stages := ["/s0", "/s1", "/s2", "/s3", "/s4", "/s5", "/s6", "/s7", "/s8", "/s9", "/s10",
      "/s11", "/s12"].map (fun p => ⟨⟨⟨p⟩⟩⟩) }

/-- The server for `thirteenStages`. -/
def thirteenTable : Env Unit :=
  tableEnv
      [("/s0", leafExecution "s0" 200 "/l0"), ("/s1", leafExecution "s1" 100 "/l1"),
       ("/s2", leafExecution "s2" 100 "/l2"), ("/s3", leafExecution "s3" 100 "/l3"),
       ("/s4", leafExecution "s4" 100 "/l4"), ("/s5", leafExecution "s5" 100 "/l5"),
       ("/s6", leafExecution "s6" 100 "/l6"), ("/s7", leafExecution "s7" 100 "/l7"),
       ("/s8", leafExecution "s8" 100 "/l8"), ("/s9", leafExecution "s9" 100 "/l9"),
       ("/s10", leafExecution "s10" 100 "/l10"), ("/s11", leafExecution "s11" 100 "/l11"),
       ("/s12", leafExecution "s12" 100 "/l12")]
      [("/l0", okLog "a"), ("/l1", okLog "b"), ("/l2", okLog "c"), ("/l3", okLog "d"),
       ("/l4", okLog "e"), ("/l5", okLog "f"), ("/l6", okLog "g"), ("/l7", okLog "h"),
       ("/l8", okLog "i"), ("/l9", okLog "j"), ("/l10", okLog "k"), ("/l11", okLog "l"),
       ("/l12", okLog "m")]

/-- The server for `thirteenStages`, with `sortSlice` for `sort.Slice`. -/
def thirteenEnv
    (sortSlice : (JenkinsStage → JenkinsStage → Bool) → List JenkinsStage → List JenkinsStage) :
    Env Unit :=
  { thirteenTable with sortSlice := sortSlice }

/-- The snapshot of `thirteenStages` with `quickSort_func`. -/
def thirteenQuickSnapshot : JenkinsData :=
  { Status := "SUCCESS", Name := "a #2", ID := "2", BuildID := "b2"
    Stages :=
      [stageLog "s12" 100 "m", stageLog "s1" 100 "b", stageLog "s2" 100 "c",
       stageLog "s3" 100 "d", stageLog "s4" 100 "e", stageLog "s5" 100 "f",
       stageLog "s6" 100 "g", stageLog "s7" 100 "h", stageLog "s8" 100 "i",
       stageLog "s9" 100 "j", stageLog "s10" 100 "k", stageLog "s11" 100 "l",
       stageLog "s0" 200 "a"] }

/-- The snapshot of `thirteenStages` with `pdqsort_func`. -/
def thirteenPdqSnapshot : JenkinsData :=
  { Status := "SUCCESS", Name := "a #2", ID := "2", BuildID := "b2"
    Stages :=
      [stageLog "s6" 100 "g", stageLog "s1" 100 "b", stageLog "s2" 100 "c",
       stageLog "s3" 100 "d", stageLog "s4" 100 "e", stageLog "s5" 100 "f",
       stageLog "s7" 100 "h", stageLog "s8" 100 "i", stageLog "s9" 100 "j",
       stageLog "s10" 100 "k", stageLog "s11" 100 "l", stageLog "s12" 100 "m",
       stageLog "s0" 200 "a"] }

/-- The lists emitted for `thirteenStages`, stage by stage. -/
def thirteenLists : List (List JenkinsStage) :=
  [[stageLog "s0" 200 "a"], [stageLog "s1" 100 "b"], [stageLog "s2" 100 "c"],
   [stageLog "s3" 100 "d"], [stageLog "s4" 100 "e"], [stageLog "s5" 100 "f"],
   [stageLog "s6" 100 "g"], [stageLog "s7" 100 "h"], [stageLog "s8" 100 "i"],
   [stageLog "s9" 100 "j"], [stageLog "s10" 100 "k"], [stageLog "s11" 100 "l"],
   [stageLog "s12" 100 "m"]]

/-- The world after the crawl of `thirteenStages`. -/
def thirteenWorld : World Unit :=
  { net := ()
    requests := ["/s0", "/l0", "/s1", "/l1", "/s2", "/l2", "/s3", "/l3", "/s4", "/l4",
      "/s5", "/l5", "/s6", "/l6", "/s7", "/l7", "/s8", "/l8", "/s9", "/l9", "/s10", "/l10",
      "/s11", "/l11", "/s12", "/l12"].map ciGet
    errorsLogged := 0 }

/-- A build whose two stages point to the same execution. -/
def twinBuild : JobData :=
  { Status := "SUCCESS", Name := "a #3", ID := "3", Stages := [⟨⟨⟨"/s1"⟩⟩⟩, ⟨⟨⟨"/s1"⟩⟩⟩] }

/-- The snapshot of `sevenStages` with `smallSliceSort` for `sort.Slice`. -/
def sevenSnapshot : JenkinsData :=
  { Status := "SUCCESS", Name := "a #1", ID := "1", BuildID := "b1"
    Stages :=
      [stageLog "s6" 100 "g", stageLog "s1" 100 "b", stageLog "s2" 100 "c",
       stageLog "s3" 100 "d", stageLog "s4" 100 "e", stageLog "s5" 100 "f",
       stageLog "s0" 200 "a"] }

/-- The lists emitted for `twinBuild` by the server of the scenario: the same entry
twice. -/
def twinLists : List (List JenkinsStage) :=
  [[{ Status := "IN_PROGRESS", Name := "build1", LogLength := 3, LogText := "abc"
      StartTime := 100 }],
   [{ Status := "IN_PROGRESS", Name := "build1", LogLength := 3, LogText := "abc"
      StartTime := 100 }]]

/-- The world after the crawl of `twinBuild`. -/
def twinWorld : World Unit :=
  { net := ()
    requests := [ciGet "/s1", ciGet "/s1/log", ciGet "/s1", ciGet "/s1/log"]
    errorsLogged := 0 }

/-- The build of the scenario: status `IN_PROGRESS`, one stage `/s1`. -/
def scenarioBuild : JobData :=
  { Status := "IN_PROGRESS", Name := "build1", ID := "1", Stages := [⟨⟨⟨"/s1"⟩⟩⟩] }

/-- A flow node with a log link. -/
def shellNode : StageFlowNode :=
  { Name := "sh", Links := ⟨⟨"/n1/log"⟩⟩, StartTimeMillis := 120 }

/-- A flow node without a log link. -/
def bareNode : StageFlowNode :=
  { Name := "input", Links := ⟨⟨""⟩⟩, StartTimeMillis := 130 }

/-- Another flow node with a log link. -/
def echoNode : StageFlowNode :=
  { Name := "echo", Links := ⟨⟨"/n3/log"⟩⟩, StartTimeMillis := 110 }

/-- The execution of the scenario: a direct log link, start-time 100. -/
def scenarioExecution : JobExecution :=
  leafExecution "build1" 100 "/s1/log"

/-- An execution without a direct log link and with three flow nodes, two of them
linked. -/
def compositeExecution : JobExecution :=
  { Name := "deploy", StartTimeMillis := 100, Links := ⟨⟨""⟩⟩
    StageFlowNodes := [shellNode, bareNode, echoNode] }

/-- The server of the scenario. -/
def scenarioEnv : Env Unit :=
  tableEnv [("/s1", scenarioExecution)]
    [("/s1/log", { NodeStatus := "IN_PROGRESS", Length := 3, Text := "abc" }),
     ("/n1/log", okLog "x")]

/-- A server that cannot be reached: every `http.Get` returns an error and no
response. -/
def downEnv : Env Unit :=
  { scenarioEnv with httpGet := fun s _ => (HttpResult.transportError, s) }

/-- A log decoder that fails on every body and leaves the record zero-valued. -/
def failingDecode (_body : String) : NodeLog × Bool :=
  ({ NodeStatus := "", Length := 0, Text := "" }, true)

/-- Two worlds that saw the same traffic: same server state, same requests. -/
def SameTraffic {σ : Type} (w w' : World σ) : Prop :=
  w.net = w'.net ∧ w.requests = w'.requests

/-- Two lists of entries with the same names and start-times, entry by entry. -/
def SameShape (l l' : List JenkinsStage) : Prop :=
  l.map (fun s => (s.Name, s.StartTime)) = l'.map (fun s => (s.Name, s.StartTime))

/-- Two runs that either both panic, or both return, with results related by `R` and
worlds that saw the same traffic. -/
def Agree {α σ : Type} (R : α → α → Prop) :
    Option (α × World σ) → Option (α × World σ) → Prop
  | none, none => True
  | some r, some r' => R r.1 r'.1 ∧ SameTraffic r.2 r'.2
  | _, _ => False

/-! ## Lemmas on the concrete sorter -/

theorem set_perm_cons {α : Type} (x y : α) :
    ∀ (l : List α) (k : Nat), l[k]? = some y → (y :: l.set k x).Perm (x :: l)
  | [], k, h => by simp at h
  | a :: l, 0, h => by
    simp at h
    subst h
    simpa using List.Perm.swap x a l
  | a :: l, k + 1, h => by
    simp at h
    have ih := set_perm_cons x y l k h
    simp only [List.set_cons_succ]
    exact (List.Perm.swap a y _).trans (((ih.cons a)).trans (List.Perm.swap x a l))

theorem gapPassFrom_perm {α : Type} (less : α → α → Bool) :
    ∀ (n : Nat) (l : List α), (gapPassFrom less n l).Perm l
  | 0, l => by simp [gapPassFrom]
  | n + 1, [] => by simp [gapPassFrom]
  | n + 1, x :: rest => by
    unfold gapPassFrom
    cases h : rest[5]? with
    | none => simp
    | some y =>
      simp only
      by_cases hl : less y x = true
      · simp only [hl, if_true]
        exact ((gapPassFrom_perm less n (rest.set 5 x)).cons y).trans
          (set_perm_cons x y rest 5 h)
      · simp only [hl]
        exact (gapPassFrom_perm less n rest).cons x

theorem sinkInto_perm {α : Type} (less : α → α → Bool) (x : α) :
    ∀ l : List α, (sinkInto less x l).Perm (x :: l)
  | [] => by simp [sinkInto]
  | y :: ys => by
    unfold sinkInto
    by_cases hl : less x y = true
    · simp only [hl, if_true]
      exact ((sinkInto_perm less x ys).cons y).trans (List.Perm.swap x y ys)
    · simp [hl]

theorem insertionSortLoop_perm {α : Type} (less : α → α → Bool) :
    ∀ (todo revDone : List α), (insertionSortLoop less revDone todo).Perm (revDone ++ todo)
  | [], revDone => by simp [insertionSortLoop]
  | x :: rest, revDone => by
    unfold insertionSortLoop
    refine (insertionSortLoop_perm less rest (sinkInto less x revDone)).trans ?_
    refine ((sinkInto_perm less x revDone).append_right rest).trans ?_
    have hm : (revDone ++ x :: rest).Perm (x :: (revDone ++ rest)) := List.perm_middle
    simpa using hm.symm

theorem sinkInto_descending (x : JenkinsStage) :
    ∀ l : List JenkinsStage, l.Pairwise (fun a b => b.StartTime ≤ a.StartTime) →
      (sinkInto startTimeLess x l).Pairwise (fun a b => b.StartTime ≤ a.StartTime)
  | [], _ => by simp [sinkInto]
  | y :: ys, h => by
    unfold sinkInto
    rw [List.pairwise_cons] at h
    by_cases hl : startTimeLess x y = true
    · simp only [hl, if_true]
      have hxy : x.StartTime < y.StartTime := by simpa [startTimeLess] using hl
      refine List.pairwise_cons.2 ⟨?_, sinkInto_descending x ys h.2⟩
      intro z hz
      rcases List.mem_cons.1 ((sinkInto_perm startTimeLess x ys).mem_iff.1 hz) with hz | hz
      · subst hz
        exact le_of_lt hxy
      · exact h.1 z hz
    · simp only [hl]
      have hxy : y.StartTime ≤ x.StartTime := by
        simpa [startTimeLess] using hl
      refine List.pairwise_cons.2 ⟨?_, List.pairwise_cons.2 h⟩
      intro z hz
      rcases List.mem_cons.1 hz with hz | hz
      · subst hz; exact hxy
      · exact le_trans (h.1 z hz) hxy

theorem insertionSortLoop_sorted :
    ∀ (todo revDone : List JenkinsStage),
      revDone.Pairwise (fun a b => b.StartTime ≤ a.StartTime) →
      (insertionSortLoop startTimeLess revDone todo).Pairwise
        (fun a b => a.StartTime ≤ b.StartTime)
  | [], revDone, h => by
    unfold insertionSortLoop
    exact List.pairwise_reverse.2 h
  | x :: rest, revDone, h => by
    unfold insertionSortLoop
    exact insertionSortLoop_sorted rest _ (sinkInto_descending x revDone h)

theorem smallSliceSort_contract : SortSliceContract smallSliceSort := by
  intro l
  constructor
  · unfold smallSliceSort insertionSortFunc gapPass
    exact (insertionSortLoop_perm startTimeLess _ []).trans
      (by simpa using gapPassFrom_perm startTimeLess l.length l)
  · unfold smallSliceSort insertionSortFunc
    exact insertionSortLoop_sorted _ [] List.Pairwise.nil


/-! ## Lemmas on the extraction engine -/

theorem extractLogsLoop_eq {σ : Type} (E : Env σ) (buildURL : URL) :
    ∀ (todo : List Stage) (stages : List JenkinsStage) (w : World σ),
      extractLogsLoop E buildURL todo stages w =
        (stageLogLists E buildURL todo w).map (fun r => (stages ++ r.1.flatten, r.2))
  | [], stages, w => by simp [extractLogsLoop, stageLogLists]
  | stage :: rest, stages, w => by
    unfold extractLogsLoop stageLogLists
    cases h1 : crawlJobStage E buildURL stage.Links.Self.Href w with
    | none => simp
    | some r1 =>
      obtain ⟨execution, w1⟩ := r1
      simp only
      cases h2 : extractLogsFromExecution E execution buildURL w1 with
      | none => simp
      | some r2 =>
        obtain ⟨logs, w2⟩ := r2
        simp only
        rw [extractLogsLoop_eq E buildURL rest (stages ++ logs) w2]
        cases h3 : stageLogLists E buildURL rest w2 with
        | none => simp
        | some r3 => simp [List.append_assoc]

theorem extractLogs_eq {σ : Type} (E : Env σ) (jd : JobData) (buildID : String)
    (buildURL : URL) (w : World σ) :
    extractLogs E jd buildID buildURL w =
      (stageLogLists E buildURL jd.Stages w).map (fun r =>
        ({ Status := jd.Status, Name := jd.Name, ID := jd.ID, BuildID := buildID
           Stages := E.sortSlice startTimeLess r.1.flatten }, r.2)) := by
  unfold extractLogs
  rw [extractLogsLoop_eq]
  cases stageLogLists E buildURL jd.Stages w with
  | none => simp
  | some r => simp

theorem perm_eq_of_all_eq {α : Type} {l₁ l₂ : List α} (hp : l₁.Perm l₂)
    (h : ∀ a ∈ l₂, ∀ b ∈ l₂, a = b) : l₁ = l₂ := by
  cases l₂ with
  | nil => exact hp.eq_nil
  | cons c t =>
    have h2 : c :: t = List.replicate (c :: t).length c :=
      List.eq_replicate_iff.2 ⟨rfl, fun b hb => h b hb c (List.mem_cons_self c t)⟩
    have h1 : l₁ = List.replicate l₁.length c :=
      List.eq_replicate_iff.2
        ⟨rfl, fun b hb => h b (hp.mem_iff.1 hb) c (List.mem_cons_self c t)⟩
    rw [h1, h2, hp.length_eq]

/-! ## Ordering of the snapshot -/

/-- C1: whenever the per-stage extractions return their lists, `extractLogs` returns a
snapshot whose stage list is a permutation of the concatenation of those lists in stage
order, has as many entries as those lists have in total, and is sorted non-decreasing by
`StartTime`. -/
theorem extractLogs_sorted_perm {σ : Type} (E : Env σ) (hs : SortSliceContract E.sortSlice)
    (jd : JobData) (buildID : String) (buildURL : URL) (w w' : World σ)
    (lists : List (List JenkinsStage))
    (h : stageLogLists E buildURL jd.Stages w = some (lists, w')) :
    ∃ snap : JenkinsData,
      extractLogs E jd buildID buildURL w = some (snap, w') ∧
      snap.Stages.Perm lists.flatten ∧
      snap.Stages.length = (lists.map List.length).sum ∧
      snap.Stages.Pairwise (fun a b => a.StartTime ≤ b.StartTime) := by
  refine ⟨_, by rw [extractLogs_eq, h]; rfl, (hs _).1, ?_, (hs _).2⟩
  simpa [List.length_flatten] using (hs lists.flatten).1.length_eq

/-- Witness of C1 on the build of seven leaf stages. -/
theorem extractLogs_sorted_perm_witness :
    ∃ snap : JenkinsData,
      extractLogs sevenEnv sevenStages "b1" ciURL freshWorld = some (snap, sevenWorld) ∧
      snap.Stages.Perm sevenLists.flatten ∧
      snap.Stages.length = (sevenLists.map List.length).sum ∧
      snap.Stages.Pairwise (fun a b => a.StartTime ≤ b.StartTime) :=
  extractLogs_sorted_perm sevenEnv smallSliceSort_contract sevenStages "b1" ciURL freshWorld
    sevenWorld sevenLists (by decide)

theorem flowNodesLoop_sortSlice {σ : Type} (E : Env σ)
    (f : (JenkinsStage → JenkinsStage → Bool) → List JenkinsStage → List JenkinsStage)
    (buildURL : URL) (ename : String) :
    ∀ (nodes : List StageFlowNode) (logs : List JenkinsStage) (w : World σ),
      crawlStageFlowNodesLogsLoop { E with sortSlice := f } buildURL ename nodes logs w =
        crawlStageFlowNodesLogsLoop E buildURL ename nodes logs w
  | [], _, _ => rfl
  | node :: rest, logs, w => by
    unfold crawlStageFlowNodesLogsLoop
    have h : extractLogsFromFlowNode { E with sortSlice := f } node buildURL ename w =
        extractLogsFromFlowNode E node buildURL ename w := rfl
    rw [h, flowNodesLoop_sortSlice E f buildURL ename rest logs w]
    cases extractLogsFromFlowNode E node buildURL ename w with
    | none => rfl
    | some r => simp only [flowNodesLoop_sortSlice E f buildURL ename rest]

theorem stageLogLists_sortSlice {σ : Type} (E : Env σ)
    (f : (JenkinsStage → JenkinsStage → Bool) → List JenkinsStage → List JenkinsStage)
    (buildURL : URL) :
    ∀ (todo : List Stage) (w : World σ),
      stageLogLists { E with sortSlice := f } buildURL todo w = stageLogLists E buildURL todo w
  | [], _ => rfl
  | stage :: rest, w => by
    unfold stageLogLists
    have h1 : crawlJobStage { E with sortSlice := f } buildURL stage.Links.Self.Href w =
        crawlJobStage E buildURL stage.Links.Self.Href w := rfl
    rw [h1]
    cases crawlJobStage E buildURL stage.Links.Self.Href w with
    | none => rfl
    | some r =>
      have h2 : extractLogsFromExecution { E with sortSlice := f } r.1 buildURL r.2 =
          extractLogsFromExecution E r.1 buildURL r.2 := by
        unfold extractLogsFromExecution crawlStageFlowNodesLogs
        rw [flowNodesLoop_sortSlice]
        rfl
      simp only [h2]
      cases extractLogsFromExecution E r.1 buildURL r.2 with
      | none => rfl
      | some r2 => simp only [stageLogLists_sortSlice E f buildURL rest]

theorem pdqsortFunc_short {α : Type} (breakPatterns : List α → Nat → Nat → List α)
    (less : α → α → Bool) (n : Nat) (data : List α) (a b limit : Nat)
    (wasBalanced wasPartitioned : Bool) (h : b - a ≤ 12) :
    pdqsortFunc breakPatterns less (n + 1) data a b limit wasBalanced wasPartitioned =
      onRange a b (insertionSortFunc less) data := by
  simp [pdqsortFunc, h]

theorem sortSlicePdq_thirteen (breakPatterns : List JenkinsStage → Nat → Nat → List JenkinsStage) :
    sortSlicePdq breakPatterns startTimeLess thirteenLists.flatten =
      thirteenPdqSnapshot.Stages := by
  have hlen : thirteenLists.flatten.length = 13 := by decide
  have hc : choosePivot startTimeLess thirteenLists.flatten 0 13 =
      (6, SortedHint.increasingHint) := by decide
  have hp : partialInsertionSort startTimeLess 0 13 5 thirteenLists.flatten 1 =
      (thirteenLists.flatten, false) := by decide
  have hpt : (partition startTimeLess thirteenLists.flatten 0 13 6).2 = (0, true) := by decide
  unfold sortSlicePdq
  rw [hlen]
  have hb : bitsLen 13 13 = 4 := by decide
  rw [hb]
  rw [pdqsortFunc]
  have hs : ∀ (data : List JenkinsStage) (a b limit : Nat) (wb wp : Bool), b - a ≤ 12 →
      pdqsortFunc breakPatterns startTimeLess 13 data a b limit wb wp =
        onRange a b (insertionSortFunc startTimeLess) data :=
    fun data a b limit wb wp h => pdqsortFunc_short breakPatterns startTimeLess 12 data a b limit wb wp h
  simp [hc, hp, hpt, hs]
  decide

theorem stageLogLists_thirteen
    (sortSlice : (JenkinsStage → JenkinsStage → Bool) → List JenkinsStage → List JenkinsStage) :
    stageLogLists (thirteenEnv sortSlice) ciURL thirteenStages.Stages freshWorld =
      some (thirteenLists, thirteenWorld) := by
  unfold thirteenEnv
  rw [stageLogLists_sortSlice]
  decide

theorem extractLogs_thirteen_quick :
    extractLogs (thirteenEnv sortSliceQuick) thirteenStages "b2" ciURL freshWorld =
      some (thirteenQuickSnapshot, thirteenWorld) := by
  decide

theorem extractLogs_thirteen_pdq
    (breakPatterns : List JenkinsStage → Nat → Nat → List JenkinsStage) :
    extractLogs (thirteenEnv (sortSlicePdq breakPatterns)) thirteenStages "b2" ciURL
        freshWorld =
      some (thirteenPdqSnapshot, thirteenWorld) := by
  rw [extractLogs_eq, stageLogLists_thirteen]
  simp only [Option.map_some', thirteenEnv, sortSlicePdq_thirteen breakPatterns]
  rfl

theorem thirteenQuickSnapshot_sorted_perm :
    thirteenQuickSnapshot.Stages.Perm thirteenLists.flatten ∧
    thirteenQuickSnapshot.Stages.Pairwise (fun a b => a.StartTime ≤ b.StartTime) := by
  constructor <;> decide

theorem thirteenPdqSnapshot_sorted_perm :
    thirteenPdqSnapshot.Stages.Perm thirteenLists.flatten ∧
    thirteenPdqSnapshot.Stages.Pairwise (fun a b => a.StartTime ≤ b.StartTime) := by
  constructor <;> decide

theorem thirteenQuickSnapshot_not_stable :
    ¬ StableFor thirteenLists.flatten thirteenQuickSnapshot.Stages := by
  intro h
  have h100 := h 100
  revert h100
  decide

theorem thirteenPdqSnapshot_not_stable :
    ¬ StableFor thirteenLists.flatten thirteenPdqSnapshot.Stages := by
  intro h
  have h100 := h 100
  revert h100
  decide

/-- C2, as stated, fails: on the build of thirteen leaf stages (start-time 200, then
twelve times 100) the snapshot is not in emission order among the entries that start at
100, with the `sort.Slice` of either implementation.  `quickSort_func` brings the entry
of the last stage to the front (`medianOfThree_func` exchanges the first and the last
element); `pdqsort_func` brings the entry of stage `s6` to the front (`partition_func`
exchanges the first element and the pivot), whatever `breakPatterns_func` does.  Both
snapshots are sorted permutations of the emitted entries. -/
theorem extractLogs_not_stable :
    extractLogs (thirteenEnv sortSliceQuick) thirteenStages "b2" ciURL freshWorld =
      some (thirteenQuickSnapshot, thirteenWorld) ∧
    (∀ breakPatterns : List JenkinsStage → Nat → Nat → List JenkinsStage,
      extractLogs (thirteenEnv (sortSlicePdq breakPatterns)) thirteenStages "b2" ciURL
          freshWorld =
        some (thirteenPdqSnapshot, thirteenWorld)) ∧
    (∀ sortSlice : (JenkinsStage → JenkinsStage → Bool) → List JenkinsStage → List JenkinsStage,
      stageLogLists (thirteenEnv sortSlice) ciURL thirteenStages.Stages freshWorld =
        some (thirteenLists, thirteenWorld)) ∧
    thirteenLists.flatten.map (fun s => s.Name) =
      ["s0", "s1", "s2", "s3", "s4", "s5", "s6", "s7", "s8", "s9", "s10", "s11", "s12"] ∧
    thirteenQuickSnapshot.Stages.map (fun s => s.Name) =
      ["s12", "s1", "s2", "s3", "s4", "s5", "s6", "s7", "s8", "s9", "s10", "s11", "s0"] ∧
    thirteenPdqSnapshot.Stages.map (fun s => s.Name) =
      ["s6", "s1", "s2", "s3", "s4", "s5", "s7", "s8", "s9", "s10", "s11", "s12", "s0"] ∧
    thirteenQuickSnapshot.Stages.Perm thirteenLists.flatten ∧
    thirteenPdqSnapshot.Stages.Perm thirteenLists.flatten ∧
    thirteenQuickSnapshot.Stages.Pairwise (fun a b => a.StartTime ≤ b.StartTime) ∧
    thirteenPdqSnapshot.Stages.Pairwise (fun a b => a.StartTime ≤ b.StartTime) ∧
    ¬ StableFor thirteenLists.flatten thirteenQuickSnapshot.Stages ∧
    ¬ StableFor thirteenLists.flatten thirteenPdqSnapshot.Stages :=
  ⟨extractLogs_thirteen_quick, extractLogs_thirteen_pdq, stageLogLists_thirteen,
   by decide, by decide, by decide,
   thirteenQuickSnapshot_sorted_perm.1, thirteenPdqSnapshot_sorted_perm.1,
   thirteenQuickSnapshot_sorted_perm.2, thirteenPdqSnapshot_sorted_perm.2,
   thirteenQuickSnapshot_not_stable, thirteenPdqSnapshot_not_stable⟩

/-- C2, amended: the entries of the snapshot with a given start-time are the emitted
entries with that start-time, in some order; they are in emission order whenever
emitted entries with equal start-time are equal. -/
theorem extractLogs_ties {σ : Type} (E : Env σ) (hs : SortSliceContract E.sortSlice)
    (jd : JobData) (buildID : String) (buildURL : URL) (w w' : World σ)
    (lists : List (List JenkinsStage))
    (h : stageLogLists E buildURL jd.Stages w = some (lists, w')) :
    ∃ snap : JenkinsData,
      extractLogs E jd buildID buildURL w = some (snap, w') ∧
      (∀ t : Int, (snap.Stages.filter (fun x => decide (x.StartTime = t))).Perm
        (lists.flatten.filter (fun x => decide (x.StartTime = t)))) ∧
      ((∀ a ∈ lists.flatten, ∀ b ∈ lists.flatten, a.StartTime = b.StartTime → a = b) →
        StableFor lists.flatten snap.Stages) := by
  refine ⟨_, by rw [extractLogs_eq, h]; rfl, fun t => (hs _).1.filter _, ?_⟩
  intro hties t
  refine perm_eq_of_all_eq ((hs _).1.filter _) ?_
  intro a ha b hb
  rw [List.mem_filter] at ha hb
  exact hties a ha.1 b hb.1 ((of_decide_eq_true ha.2).trans (of_decide_eq_true hb.2).symm)

/-- Witness of the amended C2.  On the build of seven leaf stages, whose six entries
that start at 100 differ from one another, the snapshot holds those six entries, with
the one emitted last in front.  On the build whose two stages yield the same entry, the
snapshot is in emission order. -/
theorem extractLogs_ties_witness :
    (∃ snap : JenkinsData,
      extractLogs sevenEnv sevenStages "b1" ciURL freshWorld = some (snap, sevenWorld) ∧
      (∀ t : Int, (snap.Stages.filter (fun x => decide (x.StartTime = t))).Perm
        (sevenLists.flatten.filter (fun x => decide (x.StartTime = t)))) ∧
      snap.Stages.filter (fun x => decide (x.StartTime = 100)) =
        [stageLog "s6" 100 "g", stageLog "s1" 100 "b", stageLog "s2" 100 "c",
         stageLog "s3" 100 "d", stageLog "s4" 100 "e", stageLog "s5" 100 "f"] ∧
      sevenLists.flatten.filter (fun x => decide (x.StartTime = 100)) =
        [stageLog "s1" 100 "b", stageLog "s2" 100 "c", stageLog "s3" 100 "d",
         stageLog "s4" 100 "e", stageLog "s5" 100 "f", stageLog "s6" 100 "g"]) ∧
    (∃ snap : JenkinsData,
      extractLogs scenarioEnv twinBuild "b3" ciURL freshWorld = some (snap, twinWorld) ∧
      StableFor twinLists.flatten snap.Stages) := by
  constructor
  · obtain ⟨snap, h1, h2, _⟩ := extractLogs_ties sevenEnv smallSliceSort_contract sevenStages
      "b1" ciURL freshWorld sevenWorld sevenLists (by decide)
    have he : extractLogs sevenEnv sevenStages "b1" ciURL freshWorld =
        some (sevenSnapshot, sevenWorld) := by decide
    rw [he] at h1
    simp only [Option.some.injEq, Prod.mk.injEq, and_true] at h1
    subst h1
    exact ⟨_, he, h2, by decide, by decide⟩
  · obtain ⟨snap, h1, _, h3⟩ := extractLogs_ties scenarioEnv smallSliceSort_contract twinBuild
      "b3" ciURL freshWorld twinWorld twinLists (by decide)
    exact ⟨snap, h1, h3 (by decide)⟩

/-! ## Mode selection -/

theorem extractNodeLogs_of_responsive {σ : Type} (E : Env σ) (hR : Responsive E)
    (logLink : URL) (w : World σ) :
    ∃ (nodeLog : NodeLog) (w1 : World σ),
      extractNodeLogs E logLink w = some (nodeLog, w1) ∧
      w1.net = (E.httpGet w.net logLink).2 ∧
      w1.requests = w.requests ++ [logLink] := by
  unfold extractNodeLogs httpGet
  cases h : (E.httpGet w.net logLink).1 with
  | transportError => exact absurd h (hR _ _)
  | response body withErr =>
    refine ⟨_, _, rfl, ?_, ?_⟩ <;>
      cases (E.unmarshalNodeLog body).2 <;> cases withErr <;> simp [logIfErr, logError]

theorem extractNodeLogs_requests {σ : Type} (E : Env σ) (logLink : URL) (w w1 : World σ)
    (nodeLog : NodeLog) (h : extractNodeLogs E logLink w = some (nodeLog, w1)) :
    w1.net = (E.httpGet w.net logLink).2 ∧ w1.requests = w.requests ++ [logLink] := by
  unfold extractNodeLogs httpGet at h
  cases hg : (E.httpGet w.net logLink).1 with
  | transportError => simp [hg] at h
  | response body withErr =>
    simp only [hg, Option.some.injEq, Prod.mk.injEq] at h
    rw [← h.2]
    cases (E.unmarshalNodeLog body).2 <;> cases withErr <;> simp [logIfErr, logError]

/-- C3: for an execution with a non-empty direct log link, whatever flow nodes it lists,
when the log record `nodeLog` is fetched from that link `extractLogsFromExecution`
returns exactly one entry, with the execution's name and start-time and the record's
status, length and text; that fetch is the only request made. -/
theorem extractLogsFromExecution_direct {σ : Type} (E : Env σ) (execution : JobExecution)
    (nodes : List StageFlowNode) (buildURL : URL) (w w1 : World σ) (nodeLog : NodeLog)
    (hl : execution.Links.Log.Href ≠ "")
    (hf : extractNodeLogs E
      { Scheme := buildURL.Scheme, Host := buildURL.Host, Path := execution.Links.Log.Href } w =
        some (nodeLog, w1)) :
    extractLogsFromExecution E { execution with StageFlowNodes := nodes } buildURL w =
      some ([{ Status := nodeLog.NodeStatus
               Name := execution.Name
               LogLength := nodeLog.Length
               LogText := nodeLog.Text
               StartTime := execution.StartTimeMillis }], w1) ∧
    w1.requests = w.requests ++
      [{ Scheme := buildURL.Scheme, Host := buildURL.Host, Path := execution.Links.Log.Href }] := by
  refine ⟨?_, (extractNodeLogs_requests E _ w w1 nodeLog hf).2⟩
  unfold extractLogsFromExecution crawlExecutionLogs
  simp only [hl, if_false]
  rw [hf]

theorem flowNodesLoop_of_responsive {σ : Type} (E : Env σ) (hR : Responsive E)
    (buildURL : URL) (ename : String) :
    ∀ (nodes : List StageFlowNode) (logs : List JenkinsStage) (w : World σ),
      ∃ (more : List JenkinsStage) (w' : World σ),
        crawlStageFlowNodesLogsLoop E buildURL ename nodes logs w = some (logs ++ more, w') ∧
        more.map (fun s => (s.Name, s.StartTime)) =
          (nodes.filter (fun node => decide (node.Links.Log.Href ≠ ""))).map
            (fun node => (ename ++ " - " ++ node.Name, node.StartTimeMillis)) ∧
        w'.requests = w.requests ++
          (nodes.filter (fun node => decide (node.Links.Log.Href ≠ ""))).map
            (fun node =>
              { Scheme := buildURL.Scheme, Host := buildURL.Host, Path := node.Links.Log.Href })
  | [], logs, w => ⟨[], w, by simp [crawlStageFlowNodesLogsLoop]⟩
  | node :: rest, logs, w => by
    unfold crawlStageFlowNodesLogsLoop
    by_cases hl : node.Links.Log.Href = ""
    · obtain ⟨more, w', h1, h2, h3⟩ := flowNodesLoop_of_responsive E hR buildURL ename rest logs w
      exact ⟨more, w', by simpa [hl] using h1, by simpa [hl] using h2, by simpa [hl] using h3⟩
    · obtain ⟨nodeLog, w1, hf, _, hreq⟩ := extractNodeLogs_of_responsive E hR
        { Scheme := buildURL.Scheme, Host := buildURL.Host, Path := node.Links.Log.Href } w
      obtain ⟨more, w', h1, h2, h3⟩ := flowNodesLoop_of_responsive E hR buildURL ename rest
        (logs ++ [{ Status := nodeLog.NodeStatus
                    Name := ename ++ " - " ++ node.Name
                    LogLength := nodeLog.Length
                    LogText := nodeLog.Text
                    StartTime := node.StartTimeMillis }]) w1
      refine ⟨{ Status := nodeLog.NodeStatus
                Name := ename ++ " - " ++ node.Name
                LogLength := nodeLog.Length
                LogText := nodeLog.Text
                StartTime := node.StartTimeMillis } :: more, w', ?_, ?_, ?_⟩
      · simp only [hl, if_false, extractLogsFromFlowNode, hf]
        simpa using h1
      · simp [hl, h2]
      · simp [hl, h3, hreq]

theorem flowNodesLoop_of_no_link {σ : Type} (E : Env σ) (buildURL : URL) (ename : String) :
    ∀ (nodes : List StageFlowNode) (logs : List JenkinsStage) (w : World σ),
      nodes.filter (fun node => decide (node.Links.Log.Href ≠ "")) = [] →
      crawlStageFlowNodesLogsLoop E buildURL ename nodes logs w = some (logs, w)
  | [], logs, w, _ => by simp [crawlStageFlowNodesLogsLoop]
  | node :: rest, logs, w, h => by
    unfold crawlStageFlowNodesLogsLoop
    by_cases hl : node.Links.Log.Href = ""
    · simp only [hl, if_true]
      exact flowNodesLoop_of_no_link E buildURL ename rest logs w (by simpa [hl] using h)
    · simp [hl] at h

/-- C4: for an execution with an empty direct log link, when the server answers every
request `extractLogsFromExecution` returns one entry per flow node that has a log link,
in the nodes' order, named `<execution name> - <node name>` and carrying the node's
start-time, having fetched exactly the logs of those nodes; and when no node has a log
link it returns the empty list without any request. -/
theorem extractLogsFromExecution_flowNodes {σ : Type} (E : Env σ) (execution : JobExecution)
    (buildURL : URL) (w : World σ) (hl : execution.Links.Log.Href = "") :
    (Responsive E →
      ∃ (logs : List JenkinsStage) (w' : World σ),
        extractLogsFromExecution E execution buildURL w = some (logs, w') ∧
        logs.length =
          execution.StageFlowNodes.countP (fun node => decide (node.Links.Log.Href ≠ "")) ∧
        logs.length ≤ execution.StageFlowNodes.length ∧
        logs.map (fun s => (s.Name, s.StartTime)) =
          (linkedNodes execution).map
            (fun node => (execution.Name ++ " - " ++ node.Name, node.StartTimeMillis)) ∧
        w'.requests = w.requests ++ (linkedNodes execution).map (fun node =>
          { Scheme := buildURL.Scheme, Host := buildURL.Host, Path := node.Links.Log.Href })) ∧
    (linkedNodes execution = [] →
      extractLogsFromExecution E execution buildURL w = some ([], w)) := by
  unfold extractLogsFromExecution crawlStageFlowNodesLogs linkedNodes
  simp only [hl, if_true]
  constructor
  · intro hR
    obtain ⟨more, w', h1, h2, h3⟩ :=
      flowNodesLoop_of_responsive E hR buildURL execution.Name execution.StageFlowNodes [] w
    have hlen : more.length =
        execution.StageFlowNodes.countP (fun node => decide (node.Links.Log.Href ≠ "")) := by
      have := congrArg List.length h2
      simpa [List.countP_eq_length_filter] using this
    refine ⟨more, w', by simpa using h1, hlen, ?_, h2, h3⟩
    rw [hlen]
    exact List.countP_le_length _
  · intro h
    exact flowNodesLoop_of_no_link E buildURL execution.Name execution.StageFlowNodes [] w h

/-- Witness of C3 on the execution of the scenario, given a flow node list that has a
linked node. -/
theorem extractLogsFromExecution_direct_witness :
    extractLogsFromExecution scenarioEnv
        { scenarioExecution with StageFlowNodes := [shellNode, bareNode] } ciURL freshWorld =
      some ([{ Status := "IN_PROGRESS", Name := "build1", LogLength := 3, LogText := "abc"
               StartTime := 100 }],
            { net := (), requests := [ciGet "/s1/log"], errorsLogged := 0 }) ∧
    [ciGet "/s1/log"] = [] ++ [ciGet "/s1/log"] :=
  extractLogsFromExecution_direct scenarioEnv scenarioExecution [shellNode, bareNode] ciURL
    freshWorld { net := (), requests := [ciGet "/s1/log"], errorsLogged := 0 }
    { NodeStatus := "IN_PROGRESS", Length := 3, Text := "abc" } (by decide) (by decide)

theorem tableEnv_responsive (executions : List (String × JobExecution))
    (logs : List (String × NodeLog)) : Responsive (tableEnv executions logs) := by
  intro s u h
  simp [tableEnv] at h

/-- Witness of C4: `compositeExecution` yields the entries of its two linked nodes, and
the same execution with only the unlinked node yields nothing. -/
theorem extractLogsFromExecution_flowNodes_witness :
    (∃ (logs : List JenkinsStage) (w' : World Unit),
      extractLogsFromExecution scenarioEnv compositeExecution ciURL freshWorld =
        some (logs, w') ∧
      logs.length = 2 ∧
      logs.length ≤ 3 ∧
      logs.map (fun s => (s.Name, s.StartTime)) =
        [("deploy - sh", 120), ("deploy - echo", 110)] ∧
      w'.requests = [ciGet "/n1/log", ciGet "/n3/log"]) ∧
    extractLogsFromExecution scenarioEnv
      { compositeExecution with StageFlowNodes := [bareNode] } ciURL freshWorld =
        some ([], freshWorld) :=
  ⟨(extractLogsFromExecution_flowNodes scenarioEnv compositeExecution ciURL freshWorld
      (by decide)).1 (tableEnv_responsive _ _),
   (extractLogsFromExecution_flowNodes scenarioEnv
      { compositeExecution with StageFlowNodes := [bareNode] } ciURL freshWorld
      (by decide)).2 (by decide)⟩

/-! ## Failures -/

/-- C6 (the code departs from it): when `http.Get` returns an error and no response,
`extractNodeLogs` and `crawlJobStage` do not return a record: they panic at
`defer resp.Body.Close()`, and so does an `extractLogs` that reaches them. -/
theorem fetchers_panic_on_transport_failure {σ : Type} (E : Env σ) (w : World σ)
    (logLink buildURL : URL) (link : String)
    (hlog : (E.httpGet w.net logLink).1 = HttpResult.transportError)
    (hstage : (E.httpGet w.net
      { Scheme := buildURL.Scheme, Host := buildURL.Host, Path := link }).1 =
        HttpResult.transportError) :
    extractNodeLogs E logLink w = none ∧
    crawlJobStage E buildURL link w = none ∧
    ∀ (jd : JobData) (buildID : String) (rest : List Stage),
      jd.Stages = ⟨⟨⟨link⟩⟩⟩ :: rest → extractLogs E jd buildID buildURL w = none := by
  have h1 : extractNodeLogs E logLink w = none := by
    unfold extractNodeLogs httpGet
    simp [hlog]
  have h2 : crawlJobStage E buildURL link w = none := by
    unfold crawlJobStage httpGet
    simp [hstage]
  refine ⟨h1, h2, ?_⟩
  intro jd buildID rest hjd
  unfold extractLogs
  rw [hjd]
  unfold extractLogsLoop
  simp [h2]

/-- Witness of C6's failure on the unreachable server. -/
theorem fetchers_panic_on_transport_failure_witness :
    extractNodeLogs downEnv (ciGet "/s1/log") freshWorld = none ∧
    crawlJobStage downEnv ciURL "/s1" freshWorld = none ∧
    ∀ (jd : JobData) (buildID : String) (rest : List Stage),
      jd.Stages = ⟨⟨⟨"/s1"⟩⟩⟩ :: rest → extractLogs downEnv jd buildID ciURL freshWorld = none :=
  fetchers_panic_on_transport_failure downEnv freshWorld (ciGet "/s1/log") ciURL "/s1"
    (by decide) (by decide)


theorem extractNodeLogs_of_response {σ : Type} (E : Env σ) (logLink : URL) (w : World σ)
    (body : String) (withErr : Bool)
    (h : (E.httpGet w.net logLink).1 = HttpResult.response body withErr) :
    ∃ w1 : World σ, extractNodeLogs E logLink w = some ((E.unmarshalNodeLog body).1, w1) := by
  unfold extractNodeLogs httpGet
  simp only [h]
  exact ⟨_, rfl⟩

theorem crawlJobStage_of_responsive {σ : Type} (E : Env σ) (hR : Responsive E)
    (buildURL : URL) (link : String) (w : World σ) :
    ∃ (execution : JobExecution) (w1 : World σ),
      crawlJobStage E buildURL link w = some (execution, w1) := by
  unfold crawlJobStage httpGet
  cases h : (E.httpGet w.net
    { Scheme := buildURL.Scheme, Host := buildURL.Host, Path := link }).1 with
  | transportError => exact absurd h (hR _ _)
  | response body withErr => exact ⟨_, _, rfl⟩

theorem extractLogsFromExecution_of_responsive {σ : Type} (E : Env σ) (hR : Responsive E)
    (execution : JobExecution) (buildURL : URL) (w : World σ) :
    ∃ (logs : List JenkinsStage) (w1 : World σ),
      extractLogsFromExecution E execution buildURL w = some (logs, w1) := by
  unfold extractLogsFromExecution
  by_cases hl : execution.Links.Log.Href = ""
  · simp only [hl, if_true]
    obtain ⟨more, w', h, _⟩ := flowNodesLoop_of_responsive E hR buildURL execution.Name
      execution.StageFlowNodes [] w
    exact ⟨_, _, h⟩
  · simp only [hl, if_false]
    obtain ⟨nodeLog, w1, hf, _⟩ := extractNodeLogs_of_responsive E hR
      { Scheme := buildURL.Scheme, Host := buildURL.Host, Path := execution.Links.Log.Href } w
    unfold crawlExecutionLogs
    rw [hf]
    exact ⟨_, _, rfl⟩

theorem stageLogLists_of_responsive {σ : Type} (E : Env σ) (hR : Responsive E)
    (buildURL : URL) :
    ∀ (todo : List Stage) (w : World σ),
      ∃ (lists : List (List JenkinsStage)) (w' : World σ),
        stageLogLists E buildURL todo w = some (lists, w')
  | [], w => ⟨[], w, rfl⟩
  | stage :: rest, w => by
    obtain ⟨execution, w1, h1⟩ :=
      crawlJobStage_of_responsive E hR buildURL stage.Links.Self.Href w
    obtain ⟨logs, w2, h2⟩ := extractLogsFromExecution_of_responsive E hR execution buildURL w1
    obtain ⟨lists, w3, h3⟩ := stageLogLists_of_responsive E hR buildURL rest w2
    exact ⟨logs :: lists, w3, by simp [stageLogLists, h1, h2, h3]⟩

theorem extractLogs_of_responsive {σ : Type} (E : Env σ) (hR : Responsive E) (jd : JobData)
    (buildID : String) (buildURL : URL) (w : World σ) :
    ∃ (snap : JenkinsData) (w' : World σ),
      extractLogs E jd buildID buildURL w = some (snap, w') := by
  obtain ⟨lists, w', h⟩ := stageLogLists_of_responsive E hR buildURL jd.Stages w
  exact ⟨_, w', by rw [extractLogs_eq, h]; rfl⟩

/-! ### The log decoder does not change the shape of the result -/

theorem extractNodeLogs_agree {σ : Type} (E : Env σ) (decode : String → NodeLog × Bool)
    (logLink : URL) (w w' : World σ) (hw : SameTraffic w w') :
    Agree (fun _ _ => True)
      (extractNodeLogs { E with unmarshalNodeLog := decode } logLink w)
      (extractNodeLogs E logLink w') := by
  obtain ⟨hn, hr⟩ := hw
  unfold extractNodeLogs httpGet
  simp only [hn, hr]
  cases (E.httpGet w'.net logLink).1 with
  | transportError => trivial
  | response body withErr =>
    refine ⟨trivial, ?_, ?_⟩ <;>
      cases (decode body).2 <;> cases (E.unmarshalNodeLog body).2 <;> cases withErr <;>
        simp [logIfErr, logError]

theorem crawlJobStage_agree {σ : Type} (E : Env σ) (decode : String → NodeLog × Bool)
    (buildURL : URL) (link : String) (w w' : World σ) (hw : SameTraffic w w') :
    Agree Eq
      (crawlJobStage { E with unmarshalNodeLog := decode } buildURL link w)
      (crawlJobStage E buildURL link w') := by
  obtain ⟨hn, hr⟩ := hw
  unfold crawlJobStage httpGet
  simp only [hn, hr]
  cases (E.httpGet w'.net
    { Scheme := buildURL.Scheme, Host := buildURL.Host, Path := link }).1 with
  | transportError => trivial
  | response body withErr =>
    refine ⟨rfl, ?_, ?_⟩ <;>
      cases (E.unmarshalJobExecution body).2 <;> cases withErr <;> simp [logIfErr, logError]

theorem flowNodesLoop_agree {σ : Type} (E : Env σ) (decode : String → NodeLog × Bool)
    (buildURL : URL) (ename : String) :
    ∀ (nodes : List StageFlowNode) (logs logs' : List JenkinsStage) (w w' : World σ),
      SameShape logs logs' → SameTraffic w w' →
      Agree SameShape
        (crawlStageFlowNodesLogsLoop { E with unmarshalNodeLog := decode } buildURL ename
          nodes logs w)
        (crawlStageFlowNodesLogsLoop E buildURL ename nodes logs' w')
  | [], logs, logs', w, w', hl, hw => ⟨hl, hw⟩
  | node :: rest, logs, logs', w, w', hl, hw => by
    unfold crawlStageFlowNodesLogsLoop
    by_cases hh : node.Links.Log.Href = ""
    · simp only [hh, if_true]
      exact flowNodesLoop_agree E decode buildURL ename rest logs logs' w w' hl hw
    · simp only [hh, if_false, extractLogsFromFlowNode]
      have ha := extractNodeLogs_agree E decode
        { Scheme := buildURL.Scheme, Host := buildURL.Host, Path := node.Links.Log.Href }
        w w' hw
      cases h1 : extractNodeLogs { E with unmarshalNodeLog := decode }
        { Scheme := buildURL.Scheme, Host := buildURL.Host, Path := node.Links.Log.Href } w with
      | none =>
        cases h2 : extractNodeLogs E
          { Scheme := buildURL.Scheme, Host := buildURL.Host, Path := node.Links.Log.Href }
          w' with
        | none => trivial
        | some r2 => rw [h1, h2] at ha; exact ha.elim
      | some r1 =>
        cases h2 : extractNodeLogs E
          { Scheme := buildURL.Scheme, Host := buildURL.Host, Path := node.Links.Log.Href }
          w' with
        | none => rw [h1, h2] at ha; exact ha.elim
        | some r2 =>
          rw [h1, h2] at ha
          refine flowNodesLoop_agree E decode buildURL ename rest _ _ r1.2 r2.2 ?_ ha.2
          unfold SameShape at hl ⊢
          simp [hl]

theorem extractLogsFromExecution_agree {σ : Type} (E : Env σ)
    (decode : String → NodeLog × Bool) (execution : JobExecution) (buildURL : URL)
    (w w' : World σ) (hw : SameTraffic w w') :
    Agree SameShape
      (extractLogsFromExecution { E with unmarshalNodeLog := decode } execution buildURL w)
      (extractLogsFromExecution E execution buildURL w') := by
  unfold extractLogsFromExecution
  by_cases hh : execution.Links.Log.Href = ""
  · simp only [hh, if_true]
    exact flowNodesLoop_agree E decode buildURL execution.Name execution.StageFlowNodes
      [] [] w w' rfl hw
  · simp only [hh, if_false, crawlExecutionLogs]
    have ha := extractNodeLogs_agree E decode
      { Scheme := buildURL.Scheme, Host := buildURL.Host, Path := execution.Links.Log.Href }
      w w' hw
    cases h1 : extractNodeLogs { E with unmarshalNodeLog := decode }
      { Scheme := buildURL.Scheme, Host := buildURL.Host, Path := execution.Links.Log.Href }
      w with
    | none =>
      cases h2 : extractNodeLogs E
        { Scheme := buildURL.Scheme, Host := buildURL.Host, Path := execution.Links.Log.Href }
        w' with
      | none => trivial
      | some r2 => rw [h1, h2] at ha; exact ha.elim
    | some r1 =>
      cases h2 : extractNodeLogs E
        { Scheme := buildURL.Scheme, Host := buildURL.Host, Path := execution.Links.Log.Href }
        w' with
      | none => rw [h1, h2] at ha; exact ha.elim
      | some r2 =>
        rw [h1, h2] at ha
        exact ⟨rfl, ha.2⟩

theorem extractLogsLoop_agree {σ : Type} (E : Env σ) (decode : String → NodeLog × Bool)
    (buildURL : URL) :
    ∀ (todo : List Stage) (stages stages' : List JenkinsStage) (w w' : World σ),
      SameShape stages stages' → SameTraffic w w' →
      Agree SameShape
        (extractLogsLoop { E with unmarshalNodeLog := decode } buildURL todo stages w)
        (extractLogsLoop E buildURL todo stages' w')
  | [], stages, stages', w, w', hl, hw => ⟨hl, hw⟩
  | stage :: rest, stages, stages', w, w', hl, hw => by
    unfold extractLogsLoop
    have ha := crawlJobStage_agree E decode buildURL stage.Links.Self.Href w w' hw
    cases h1 : crawlJobStage { E with unmarshalNodeLog := decode } buildURL
      stage.Links.Self.Href w with
    | none =>
      cases h2 : crawlJobStage E buildURL stage.Links.Self.Href w' with
      | none => trivial
      | some r2 => rw [h1, h2] at ha; exact ha.elim
    | some r1 =>
      cases h2 : crawlJobStage E buildURL stage.Links.Self.Href w' with
      | none => rw [h1, h2] at ha; exact ha.elim
      | some r2 =>
        rw [h1, h2] at ha
        obtain ⟨e1, v1⟩ := r1
        obtain ⟨e2, v2⟩ := r2
        obtain ⟨he, hv⟩ := ha
        simp only at he hv
        subst he
        simp only
        have hb := extractLogsFromExecution_agree E decode e1 buildURL v1 v2 hv
        cases h3 : extractLogsFromExecution { E with unmarshalNodeLog := decode } e1
          buildURL v1 with
        | none =>
          cases h4 : extractLogsFromExecution E e1 buildURL v2 with
          | none => trivial
          | some r4 => rw [h3, h4] at hb; exact hb.elim
        | some r3 =>
          cases h4 : extractLogsFromExecution E e1 buildURL v2 with
          | none => rw [h3, h4] at hb; exact hb.elim
          | some r4 =>
            rw [h3, h4] at hb
            refine extractLogsLoop_agree E decode buildURL rest _ _ r3.2 r4.2 ?_ hb.2
            have hs := hb.1
            unfold SameShape at hl hs ⊢
            simp [hl, hs]

/-- C7: a body that is received yields a record from `extractNodeLogs` whatever the
decoder reports, and the Mode A entry and the Mode B entry are emitted with their name
and start-time; replacing the log decoder by any other changes neither whether
`extractLogs` returns nor the number of entries of its snapshot; and when every request
is answered `extractLogs` returns a snapshot. -/
theorem decode_failure_keeps_entries {σ : Type} (E : Env σ)
    (hs : SortSliceContract E.sortSlice) (decode : String → NodeLog × Bool) :
    (∀ (logLink : URL) (w : World σ) (body : String) (withErr : Bool),
      (E.httpGet w.net logLink).1 = HttpResult.response body withErr →
      ∃ w1 : World σ,
        extractNodeLogs E logLink w = some ((E.unmarshalNodeLog body).1, w1)) ∧
    (∀ (execution : JobExecution) (buildURL : URL) (w : World σ) (body : String)
        (withErr : Bool),
      (E.httpGet w.net { Scheme := buildURL.Scheme, Host := buildURL.Host
                         Path := execution.Links.Log.Href }).1 =
        HttpResult.response body withErr →
      ∃ w1 : World σ, crawlExecutionLogs E execution buildURL w =
        some ([{ Status := (E.unmarshalNodeLog body).1.NodeStatus
                 Name := execution.Name
                 LogLength := (E.unmarshalNodeLog body).1.Length
                 LogText := (E.unmarshalNodeLog body).1.Text
                 StartTime := execution.StartTimeMillis }], w1)) ∧
    (∀ (node : StageFlowNode) (buildURL : URL) (ename : String) (w : World σ) (body : String)
        (withErr : Bool),
      (E.httpGet w.net { Scheme := buildURL.Scheme, Host := buildURL.Host
                         Path := node.Links.Log.Href }).1 =
        HttpResult.response body withErr →
      ∃ w1 : World σ, extractLogsFromFlowNode E node buildURL ename w =
        some ({ Status := (E.unmarshalNodeLog body).1.NodeStatus
                Name := ename ++ " - " ++ node.Name
                LogLength := (E.unmarshalNodeLog body).1.Length
                LogText := (E.unmarshalNodeLog body).1.Text
                StartTime := node.StartTimeMillis }, w1)) ∧
    (∀ (jd : JobData) (buildID : String) (buildURL : URL) (w : World σ),
      (extractLogs { E with unmarshalNodeLog := decode } jd buildID buildURL w).map
          (fun r => r.1.Stages.length) =
        (extractLogs E jd buildID buildURL w).map (fun r => r.1.Stages.length)) ∧
    (Responsive E → ∀ (jd : JobData) (buildID : String) (buildURL : URL) (w : World σ),
      ∃ (snap : JenkinsData) (w' : World σ),
        extractLogs E jd buildID buildURL w = some (snap, w')) := by
  refine ⟨extractNodeLogs_of_response E, ?_, ?_, ?_, fun hR => extractLogs_of_responsive E hR⟩
  · intro execution buildURL w body withErr h
    obtain ⟨w1, h1⟩ := extractNodeLogs_of_response E _ w body withErr h
    exact ⟨w1, by simp [crawlExecutionLogs, h1]⟩
  · intro node buildURL ename w body withErr h
    obtain ⟨w1, h1⟩ := extractNodeLogs_of_response E _ w body withErr h
    exact ⟨w1, by simp [extractLogsFromFlowNode, h1]⟩
  · intro jd buildID buildURL w
    have ha := extractLogsLoop_agree E decode buildURL jd.Stages [] [] w w rfl ⟨rfl, rfl⟩
    unfold extractLogs
    cases h1 : extractLogsLoop { E with unmarshalNodeLog := decode } buildURL jd.Stages [] w with
    | none =>
      cases h2 : extractLogsLoop E buildURL jd.Stages [] w with
      | none => rfl
      | some r2 => rw [h1, h2] at ha; exact ha.elim
    | some r1 =>
      cases h2 : extractLogsLoop E buildURL jd.Stages [] w with
      | none => rw [h1, h2] at ha; exact ha.elim
      | some r2 =>
        rw [h1, h2] at ha
        have hlen : r1.1.length = r2.1.length := by
          have := congrArg List.length ha.1
          simpa using this
        simp only [Option.map_some', Option.some.injEq]
        rw [(hs r1.1).1.length_eq, (hs r2.1).1.length_eq, hlen]

/-- Witness of C7 on the scenario: with a log decoder that fails on every body the
snapshot still has its one entry. -/
theorem decode_failure_keeps_entries_witness :
    (∃ w1 : World Unit, extractNodeLogs scenarioEnv (ciGet "/nowhere") freshWorld =
      some ((scenarioEnv.unmarshalNodeLog "/nowhere").1, w1)) ∧
    (extractLogs { scenarioEnv with unmarshalNodeLog := failingDecode } scenarioBuild "b1"
        ciURL freshWorld).map (fun r => r.1.Stages.length) =
      (extractLogs scenarioEnv scenarioBuild "b1" ciURL freshWorld).map
        (fun r => r.1.Stages.length) ∧
    (extractLogs { scenarioEnv with unmarshalNodeLog := failingDecode } scenarioBuild "b1"
        ciURL freshWorld).map (fun r => r.1.Stages) =
      some [{ Status := "", Name := "build1", LogLength := 0, LogText := "", StartTime := 100 }] ∧
    ∃ (snap : JenkinsData) (w' : World Unit),
      extractLogs scenarioEnv scenarioBuild "b1" ciURL freshWorld = some (snap, w') :=
  ⟨(decode_failure_keeps_entries scenarioEnv smallSliceSort_contract failingDecode).1
      (ciGet "/nowhere") freshWorld "/nowhere" false (by decide),
   (decode_failure_keeps_entries scenarioEnv smallSliceSort_contract failingDecode).2.2.2.1
      scenarioBuild "b1" ciURL freshWorld,
   by decide,
   (decode_failure_keeps_entries scenarioEnv smallSliceSort_contract failingDecode).2.2.2.2
      (tableEnv_responsive _ _) scenarioBuild "b1" ciURL freshWorld⟩

/-! ## Frame of the snapshot -/

/-- C8: a snapshot returned by `extractLogs` carries the status, name and id of the
build description and the build identifier supplied, whatever the fetches returned;
and a snapshot is returned whenever every request is answered. -/
theorem extractLogs_header {σ : Type} (E : Env σ) (jd : JobData) (buildID : String)
    (buildURL : URL) (w : World σ) :
    (Responsive E → ∃ (snap : JenkinsData) (w' : World σ),
      extractLogs E jd buildID buildURL w = some (snap, w')) ∧
    (∀ (snap : JenkinsData) (w' : World σ),
      extractLogs E jd buildID buildURL w = some (snap, w') →
      snap.Status = jd.Status ∧ snap.Name = jd.Name ∧ snap.ID = jd.ID ∧
        snap.BuildID = buildID) := by
  refine ⟨fun hR => extractLogs_of_responsive E hR jd buildID buildURL w, ?_⟩
  intro snap w' h
  rw [extractLogs_eq] at h
  cases hl : stageLogLists E buildURL jd.Stages w with
  | none => simp [hl] at h
  | some r =>
    simp only [hl, Option.map_some', Option.some.injEq, Prod.mk.injEq] at h
    rw [← h.1]
    exact ⟨rfl, rfl, rfl, rfl⟩

/-- Witness of C8 on the scenario. -/
theorem extractLogs_header_witness :
    (∃ (snap : JenkinsData) (w' : World Unit),
      extractLogs scenarioEnv scenarioBuild "b1" ciURL freshWorld = some (snap, w')) ∧
    ("IN_PROGRESS" = scenarioBuild.Status ∧ "build1" = scenarioBuild.Name ∧
      "1" = scenarioBuild.ID ∧ "b1" = "b1") :=
  ⟨(extractLogs_header scenarioEnv scenarioBuild "b1" ciURL freshWorld).1
      (tableEnv_responsive _ _),
   (extractLogs_header scenarioEnv scenarioBuild "b1" ciURL freshWorld).2
      { Status := "IN_PROGRESS", Name := "build1", ID := "1", BuildID := "b1"
        Stages := [{ Status := "IN_PROGRESS", Name := "build1", LogLength := 3
                     LogText := "abc", StartTime := 100 }] }
      { net := (), requests := [ciGet "/s1", ciGet "/s1/log"], errorsLogged := 0 }
      (by decide)⟩

/-- C9: for a build description without stages `extractLogs` returns a snapshot with an
empty stage list and leaves the world as it was: no request is made and no error is
logged. -/
theorem extractLogs_no_stages {σ : Type} (E : Env σ) (hs : SortSliceContract E.sortSlice)
    (jd : JobData) (buildID : String) (buildURL : URL) (w : World σ)
    (h : jd.Stages = []) :
    extractLogs E jd buildID buildURL w =
      some ({ Status := jd.Status, Name := jd.Name, ID := jd.ID, BuildID := buildID
              Stages := [] }, w) := by
  unfold extractLogs
  rw [h]
  simp only [extractLogsLoop]
  rw [(hs []).1.eq_nil]

/-- Witness of C9: the zero-valued build description, on a server that cannot be
reached. -/
theorem extractLogs_no_stages_witness :
    extractLogs downEnv { Status := "", Name := "", ID := "", Stages := [] } "b1" ciURL
        freshWorld =
      some ({ Status := "", Name := "", ID := "", BuildID := "b1", Stages := [] },
            freshWorld) :=
  extractLogs_no_stages downEnv smallSliceSort_contract
    { Status := "", Name := "", ID := "", Stages := [] } "b1" ciURL freshWorld rfl


/-! ## Poll scheduler -/

theorem updateStateStep_spawned {φ : Type} (F : FileEnv φ) (buildID : String)
    (jdata : JenkinsData) (s : SchedulerState φ) :
    (updateStateStep F buildID jdata s).spawned =
      s.spawned ++
        (if jdata.Status = "" ∨ jdata.Status = "IN_PROGRESS" then
          [{ sleepSeconds := 5, value := buildID }]
         else []) := by
  unfold updateStateStep
  by_cases h : jdata.Status = "" ∨ jdata.Status = "IN_PROGRESS"
  · simp only [h, if_true]
  · simp only [h, if_false, List.append_nil]

theorem updateState_spawned {φ : Type} (F : FileEnv φ) (buildID : String) :
    ∀ (snaps : List JenkinsData) (s : SchedulerState φ),
      (updateState F buildID snaps s).spawned =
        s.spawned ++
          (snaps.filter (fun j => decide (j.Status = "" ∨ j.Status = "IN_PROGRESS"))).map
            (fun _ => { sleepSeconds := 5, value := buildID })
  | [], s => by simp [updateState]
  | jdata :: rest, s => by
    unfold updateState
    rw [updateState_spawned F buildID rest, updateStateStep_spawned]
    by_cases h : jdata.Status = "" ∨ jdata.Status = "IN_PROGRESS"
    · simp [h]
    · simp [h]

theorem updateState_append {φ : Type} (F : FileEnv φ) (buildID : String) (jdata : JenkinsData) :
    ∀ (snaps : List JenkinsData) (s : SchedulerState φ),
      updateState F buildID (snaps ++ [jdata]) s =
        updateStateStep F buildID jdata (updateState F buildID snaps s)
  | [], s => by simp [updateState]
  | j :: rest, s => by
    simp only [List.cons_append, updateState]
    exact updateState_append F buildID jdata rest _

/-- C5: one handling step of the scheduler started by `CrawlJenkins` starts exactly one
delayed send, of the build identifier the crawl was started with and after a sleep of
5 seconds, when the snapshot's status is `""` or `"IN_PROGRESS"`, and starts none for
any other status. -/
theorem updateStateStep_requeue {φ : Type} (F : FileEnv φ) (buildURI buildID : String)
    (jdata : JenkinsData) (s : SchedulerState φ) :
    (CrawlJenkins buildURI buildID).processChan = [buildID] ∧
    (updateStateStep F (CrawlJenkins buildURI buildID).schedulerBuildID jdata s).spawned =
      s.spawned ++
        (if jdata.Status = "" ∨ jdata.Status = "IN_PROGRESS" then
          [{ sleepSeconds := 5, value := buildID }]
         else []) :=
  ⟨rfl, updateStateStep_spawned F buildID jdata s⟩

/-- C10: the delayed sends started by the scheduler do not depend on the outcome of the
file writes: two runs over the same snapshots with any two file systems start the same
sends, one per snapshot whose status is `""` or `"IN_PROGRESS"`; a failed write is
logged; and after any run the loop handles the next snapshot it receives. -/
theorem updateState_ignores_write_outcome {φ ψ : Type} (F : FileEnv φ) (G : FileEnv ψ)
    (buildID : String) (snaps : List JenkinsData) (fs1 : φ) (fs2 : ψ) (e1 e2 : Nat)
    (sp : List DelayedSend) :
    (updateState F buildID snaps { fs := fs1, errorsLogged := e1, spawned := sp }).spawned =
      (updateState G buildID snaps { fs := fs2, errorsLogged := e2, spawned := sp }).spawned ∧
    (updateState F buildID snaps { fs := fs1, errorsLogged := e1, spawned := sp }).spawned =
      sp ++ (snaps.filter (fun j => decide (j.Status = "" ∨ j.Status = "IN_PROGRESS"))).map
        (fun _ => { sleepSeconds := 5, value := buildID }) ∧
    (∀ jdata : JenkinsData,
      (updateStateStep F buildID jdata
          { fs := fs1, errorsLogged := e1, spawned := sp }).errorsLogged =
        e1 + (if (F.writeFile fs1 (F.executableFolder ++ "/out_" ++ buildID ++ ".json")
                (F.marshalIndent jdata)).1 then 1 else 0)) ∧
    (∀ jdata : JenkinsData,
      updateState F buildID (snaps ++ [jdata])
          { fs := fs1, errorsLogged := e1, spawned := sp } =
        updateStateStep F buildID jdata
          (updateState F buildID snaps { fs := fs1, errorsLogged := e1, spawned := sp })) := by
  refine ⟨?_, updateState_spawned F buildID snaps _, ?_,
    fun jdata => updateState_append F buildID jdata snaps _⟩
  · rw [updateState_spawned, updateState_spawned]
  · intro jdata
    unfold updateStateStep
    by_cases h : jdata.Status = "" ∨ jdata.Status = "IN_PROGRESS" <;>
      cases hw : (F.writeFile fs1 (F.executableFolder ++ "/out_" ++ buildID ++ ".json")
        (F.marshalIndent jdata)).1 <;> simp [h, hw]

end Jenkins
